import Mathlib

/-!
Verification development for the Halide Vulkan/SPIR-V back end.

This file shallowly embeds the parts of the repository that the checked
properties are about:

* the typed expression IR and the intrinsic lowering functions of
  `src/FindIntrinsics.cpp` (`lower_intrinsic`, `lower_intrinsic_semantically`,
  the individual `lower_*` helpers, and the `FindIntrinsics` rewriting
  mutator);
* the SPIR-V builder state machine of `src/SpirvIR.cpp` (id allocation,
  type and pointer-type interning, block/function assembly, `finalize`);
* the parts of the SPIR-V shader emitter of `src/CodeGen_Vulkan_Dev.cpp`
  that dispatch higher-order intrinsics, validate workgroup sizes, and
  emit the five-block structured loop for a serial `For`.

Helper routines that live in Halide translation units not present under
`src/` (e.g. `lossless_cast`, `can_prove`, `simplify`, `Type::can_represent`
from `IROperator.cpp` / `Type.cpp`) are modelled from the specification and
are marked as such in their doc comments.
-/

namespace HalideSpec

/-! ## Types (`Type.h`): a Halide type is (code, bits, lanes). -/

/-- The type code of a Halide scalar element, `halide_type_code_t`.
Booleans are represented as `UInt(1)` as in the source. -/
inductive TypeCode
  | tint
  | tuint
  | tfloat
  | tbfloat
  | thandle
  deriving DecidableEq, Repr

/-- A Halide `Type`: `(code, bits, lanes)`. -/
structure HType where
  code : TypeCode
  bits : Nat
  lanes : Nat
  deriving DecidableEq, Repr

namespace HType

/-- `Type::widen()`: same code and lanes, double the bits. -/
def widen (t : HType) : HType := { t with bits := t.bits * 2 }

/-- `Type::narrow()`: same code and lanes, half the bits. -/
def narrow (t : HType) : HType := { t with bits := t.bits / 2 }

/-- `Type::with_code(code)`. -/
def with_code (t : HType) (c : TypeCode) : HType := { t with code := c }

/-- `Type::with_lanes(lanes)`. -/
def with_lanes (t : HType) (l : Nat) : HType := { t with lanes := l }

/-- `Type::with_bits(bits)`. -/
def with_bits (t : HType) (b : Nat) : HType := { t with bits := b }

/-- `Type::element_of()`: the scalar type with the same code and bits. -/
def element_of (t : HType) : HType := t.with_lanes 1

def is_int (t : HType) : Bool := t.code == TypeCode.tint
def is_uint (t : HType) : Bool := t.code == TypeCode.tuint
def is_float (t : HType) : Bool := t.code == TypeCode.tfloat
def is_int_or_uint (t : HType) : Bool := t.is_int || t.is_uint
def is_bool (t : HType) : Bool := t.is_uint && t.bits == 1
def is_vector (t : HType) : Bool := t.lanes > 1
def is_scalar (t : HType) : Bool := t.lanes == 1
def is_handle (t : HType) : Bool := t.code == TypeCode.thandle

/-- Smallest value of an integer type, as a mathematical integer. -/
def intMin (t : HType) : Int :=
  if t.is_int then -((2 : Int) ^ (t.bits - 1)) else 0

/-- Largest value of an integer type, as a mathematical integer. -/
def intMax (t : HType) : Int :=
  if t.is_int then (2 : Int) ^ (t.bits - 1) - 1 else (2 : Int) ^ t.bits - 1

end HType

/-- `Int(bits, lanes)` constructor as in `Type.h`. -/
def IntT (bits : Nat) (lanes : Nat := 1) : HType := ⟨TypeCode.tint, bits, lanes⟩

/-- `UInt(bits, lanes)` constructor as in `Type.h`. -/
def UIntT (bits : Nat) (lanes : Nat := 1) : HType := ⟨TypeCode.tuint, bits, lanes⟩

/-- `Float(bits, lanes)` constructor as in `Type.h`. -/
def FloatT (bits : Nat) (lanes : Nat := 1) : HType := ⟨TypeCode.tfloat, bits, lanes⟩

/-- `Bool(lanes)`: Halide booleans are `UInt(1)`. -/
def BoolT (lanes : Nat := 1) : HType := UIntT 1 lanes

/-- `Handle()`: opaque/void. -/
def HandleT : HType := ⟨TypeCode.thandle, 64, 1⟩

/-! ## Expressions

The intrinsic op-codes of `IR.h` that the lowering and recognition code
manipulates.  Shifts and bitwise operations are intrinsic `Call`s in
Halide, as are all the widening/rounding/saturating operations. -/

inductive IOp
  | widening_add
  | widening_sub
  | widening_mul
  | widen_right_add
  | widen_right_sub
  | widen_right_mul
  | widening_shift_left
  | widening_shift_right
  | rounding_shift_left
  | rounding_shift_right
  | saturating_add
  | saturating_sub
  | saturating_cast
  | halving_add
  | halving_sub
  | rounding_halving_add
  | mul_shift_right
  | rounding_mul_shift_right
  | sorted_avg
  | absd
  | abs
  | shift_left
  | shift_right
  | bitwise_and
  | bitwise_or
  | bitwise_xor
  | bitwise_not
  deriving DecidableEq, Repr

/-- The Halide expression tree (the node kinds that the embedded code
touches).  Constants carry their type; a constant of vector type stands
for the broadcast of the scalar (the IR's `Broadcast(Imm, lanes)`), which
is how the pattern matcher treats it.  Float immediates are never
evaluated by any theorem in this file; they carry an opaque integer tag
so that structural equality is still decidable.  Intrinsic `Call` nodes
appear with their fixed arity (every intrinsic involved here is unary,
binary or ternary; the source asserts the arity at each use). -/
inductive Expr
  | IntImm (t : HType) (v : Int)
  | FloatImm (t : HType) (tag : Int)
  | Var (t : HType) (name : String)
  | Cast (t : HType) (e : Expr)
  | Reinterpret (t : HType) (e : Expr)
  | Add (a b : Expr)
  | Sub (a b : Expr)
  | Mul (a b : Expr)
  | Div (a b : Expr)
  | Min (a b : Expr)
  | Max (a b : Expr)
  | EQ (a b : Expr)
  | LT (a b : Expr)
  | LE (a b : Expr)
  | GT (a b : Expr)
  | GE (a b : Expr)
  | Select (c a b : Expr)
  | LetE (name : String) (value body : Expr)
  | Call1 (t : HType) (op : IOp) (a : Expr)
  | Call2 (t : HType) (op : IOp) (a b : Expr)
  | Call3 (t : HType) (op : IOp) (a b c : Expr)
  deriving DecidableEq, Repr

namespace Expr

/-- The static type of an expression (each IR node's `type` field). -/
def etype : Expr → HType
  | IntImm t _ => t
  | FloatImm t _ => t
  | Var t _ => t
  | Cast t _ => t
  | Reinterpret t _ => t
  | Add a _ => a.etype
  | Sub a _ => a.etype
  | Mul a _ => a.etype
  | Div a _ => a.etype
  | Min a _ => a.etype
  | Max a _ => a.etype
  | EQ a _ => BoolT a.etype.lanes
  | LT a _ => BoolT a.etype.lanes
  | LE a _ => BoolT a.etype.lanes
  | GT a _ => BoolT a.etype.lanes
  | GE a _ => BoolT a.etype.lanes
  | Select _ a _ => a.etype
  | LetE _ _ b => b.etype
  | Call1 t _ _ => t
  | Call2 t _ _ _ => t
  | Call3 t _ _ _ _ => t

end Expr

open Expr TypeCode

/-! ## Constants and the usual IR helper constructors -/

/-- Wrap a mathematical integer into the representable range of an
integer type (two's-complement wrap-around, as the fixed-width IR types
behave). -/
def wrapInt (t : HType) (v : Int) : Int :=
  if t.is_int then
    (v + 2 ^ (t.bits - 1)) % 2 ^ t.bits - 2 ^ (t.bits - 1)
  else
    v % 2 ^ t.bits

/-- `make_const(t, v)`. -/
def mkConst (t : HType) (v : Int) : Expr := .IntImm t (wrapInt t v)

/-- `make_zero(t)`. -/
def make_zero (t : HType) : Expr := mkConst t 0

/-- `make_one(t)`. -/
def make_one (t : HType) : Expr := mkConst t 1

/-- `as_const_int` / `as_const_uint`: the value of an integer immediate
(covers broadcasts of one, since vector constants are stored splat). -/
def asConst : Expr → Option Int
  | .IntImm _ v => some v
  | _ => none

/-- `is_const(e, v)`. -/
def isConstV (e : Expr) (v : Int) : Bool := asConst e == some v

/-- `is_const(e)`. -/
def isConst (e : Expr) : Bool := (asConst e).isSome

/-- `is_positive_const(e)`. -/
def is_positive_const (e : Expr) : Bool :=
  match asConst e with
  | some v => v > 0
  | none => false

/-- `cast(t, e)` from `IROperator.h`: the identity when the expression
already has the requested type; an integer immediate is folded to a
constant of the target type (as the real `cast` does via `make_const`,
producing the broadcast constant for a vector target); otherwise a
`Cast` node. -/
def hcast (t : HType) (e : Expr) : Expr :=
  if e.etype == t then e
  else
    match e with
    | .IntImm et v => if t.is_int_or_uint && et.is_int_or_uint then mkConst t v else .Cast t e
    | _ => .Cast t e

/-- `reinterpret(t, e)` helper: a `Reinterpret` node. -/
def hreinterpret (t : HType) (e : Expr) : Expr := .Reinterpret t e

/-! ## Helpers that live outside `src/` (modelled from the spec)

`Type::can_represent`, `lossless_cast`, `lossless_negate`, `match_types`,
`simplify` and `can_prove` are defined in Halide translation units that are
not part of this repository slice (`Type.cpp`, `IROperator.cpp`,
`Simplify.cpp`).  They are modelled here from the specification's data
model (spec section 3) and from how the code under `src/` relies on them;
each model is conservative where the real routine is conservative. -/

/-- Modelled from the spec: `Type::can_represent(other)` — whether every
value of `other` is exactly representable in `t` (same lanes; a signed
type holds a narrower unsigned one; a wider float holds a narrower one). -/
def canRepresent (t other : HType) : Bool :=
  t.lanes == other.lanes &&
  (match t.code, other.code with
   | tint, tint => other.bits ≤ t.bits
   | tint, tuint => other.bits < t.bits
   | tuint, tuint => other.bits ≤ t.bits
   | tfloat, tfloat => other.bits ≤ t.bits
   | tfloat, tint => other.bits * 2 ≤ t.bits
   | tfloat, tuint => other.bits * 2 ≤ t.bits
   | _, _ => false)

/-- Whether the concrete integer value `v` is in the representable range
of integer type `t` (`Type::can_represent(int64_t)`). -/
def canRepresentV (t : HType) (v : Int) : Bool :=
  t.is_int_or_uint && t.intMin ≤ v && v ≤ t.intMax

/-- Modelled from the spec: `lossless_cast(t, e)` from `IROperator.cpp` —
a conservative, structural check that casting `e` to `t` loses no
information, returning the narrowed expression if so.  It accepts the
expression itself at the right type, any expression whose type `t` can
represent, a cast whose intermediate type was itself lossless, and an
integer immediate whose value fits. -/
def lossless_cast (t : HType) (e : Expr) : Option Expr :=
  if e.etype == t then
    some e
  else if canRepresent t e.etype then
    some (hcast t e)
  else
    match e with
    | .Cast ct inner =>
        if canRepresent ct inner.etype then lossless_cast t inner else none
    | .IntImm _ v => if canRepresentV t v then some (mkConst t v) else none
    | _ => none

/-- Modelled from the spec: `lossless_negate(e)` — negate an expression
when the negation is exactly representable in the same type (here: only
integer immediates, conservatively). -/
def lossless_negate (e : Expr) : Option Expr :=
  match e with
  | .IntImm t v =>
      if t.is_int && canRepresentV t (-v) then some (mkConst t (-v)) else none
  | _ => none

/-- Modelled from the spec: the type-matching rule of the binary operator
helpers in `IROperator.cpp` (`match_types`): equal types pass through; a
scalar is broadcast to match a vector; otherwise the operand with fewer
bits is cast to the type of the other. -/
def matchBin (a b : Expr) : Expr × Expr :=
  if a.etype == b.etype then (a, b)
  else
    let ta := a.etype
    let tb := b.etype
    if ta.lanes ≠ tb.lanes then
      -- broadcast the scalar side (vector constants are stored splat)
      if ta.lanes == 1 then (hcast (ta.with_lanes tb.lanes) a, b)
      else (a, hcast (tb.with_lanes ta.lanes) b)
    else if ta.bits < tb.bits then (hcast tb a, b)
    else (a, hcast ta b)

/-! ## Constant folding (models of `simplify` and `can_prove`)

The simplifier and the prover are outside `src/`.  The uses inside the
embedded code only ever need constant folding (folding the round-amount
expression in `to_rounding_shift`, and deciding equalities/inequalities
between folded constants), so they are modelled by a bottom-up constant
folder; `can_prove` is conservative exactly as the real one is: it answers
`true` only when the folded expression is the constant true. -/

/-- Floor division as the IR's `Div` on integers rounds (toward negative
infinity). -/
def hdiv (a b : Int) : Int := Int.fdiv a b

/-- Modelled from the spec: bottom-up constant folding, standing in for
`simplify` on the constant expressions the embedded code builds. -/
def foldConst : Expr → Expr
  | .Cast t e =>
      match foldConst e with
      | .IntImm et v => if t.is_int_or_uint && et.is_int_or_uint then mkConst t v else .Cast t (.IntImm et v)
      | e' => .Cast t e'
  | .Reinterpret t e => .Reinterpret t (foldConst e)
  | .Add a b =>
      match foldConst a, foldConst b with
      | .IntImm t v, .IntImm _ w => mkConst t (v + w)
      | a', b' => .Add a' b'
  | .Sub a b =>
      match foldConst a, foldConst b with
      | .IntImm t v, .IntImm _ w => mkConst t (v - w)
      | a', b' => .Sub a' b'
  | .Mul a b =>
      match foldConst a, foldConst b with
      | .IntImm t v, .IntImm _ w => mkConst t (v * w)
      | a', b' => .Mul a' b'
  | .Div a b =>
      match foldConst a, foldConst b with
      | .IntImm t v, .IntImm _ w => if w == 0 then .Div (.IntImm t v) (.IntImm t w) else mkConst t (hdiv v w)
      | a', b' => .Div a' b'
  | .Min a b =>
      match foldConst a, foldConst b with
      | .IntImm t v, .IntImm _ w => mkConst t (min v w)
      | a', b' => .Min a' b'
  | .Max a b =>
      match foldConst a, foldConst b with
      | .IntImm t v, .IntImm _ w => mkConst t (max v w)
      | a', b' => .Max a' b'
  | .EQ a b =>
      match foldConst a, foldConst b with
      | .IntImm t v, .IntImm t' w =>
          if t == t' then mkConst (BoolT t.lanes) (if v == w then 1 else 0)
          else .EQ (.IntImm t v) (.IntImm t' w)
      | a', b' => .EQ a' b'
  | .LT a b =>
      match foldConst a, foldConst b with
      | .IntImm t v, .IntImm t' w =>
          if t == t' then mkConst (BoolT t.lanes) (if v < w then 1 else 0)
          else .LT (.IntImm t v) (.IntImm t' w)
      | a', b' => .LT a' b'
  | .LE a b =>
      match foldConst a, foldConst b with
      | .IntImm t v, .IntImm t' w =>
          if t == t' then mkConst (BoolT t.lanes) (if v ≤ w then 1 else 0)
          else .LE (.IntImm t v) (.IntImm t' w)
      | a', b' => .LE a' b'
  | .GT a b =>
      match foldConst a, foldConst b with
      | .IntImm t v, .IntImm t' w =>
          if t == t' then mkConst (BoolT t.lanes) (if v > w then 1 else 0)
          else .GT (.IntImm t v) (.IntImm t' w)
      | a', b' => .GT a' b'
  | .GE a b =>
      match foldConst a, foldConst b with
      | .IntImm t v, .IntImm t' w =>
          if t == t' then mkConst (BoolT t.lanes) (if v ≥ w then 1 else 0)
          else .GE (.IntImm t v) (.IntImm t' w)
      | a', b' => .GE a' b'
  | .Select c a b =>
      match foldConst c with
      | .IntImm ct v =>
          if ct.is_bool then (if v == 1 then foldConst a else foldConst b)
          else .Select (.IntImm ct v) (foldConst a) (foldConst b)
      | c' => .Select c' (foldConst a) (foldConst b)
  | .Call2 t IOp.shift_left a b =>
      match foldConst a, foldConst b with
      | .IntImm ta v, .IntImm _ w =>
          if w ≥ 0 then mkConst ta (v * 2 ^ w.toNat) else mkConst ta (hdiv v (2 ^ (-w).toNat))
      | a', b' => .Call2 t IOp.shift_left a' b'
  | .Call2 t IOp.shift_right a b =>
      match foldConst a, foldConst b with
      | .IntImm ta v, .IntImm _ w =>
          if w ≥ 0 then mkConst ta (hdiv v (2 ^ w.toNat)) else mkConst ta (v * 2 ^ (-w).toNat)
      | a', b' => .Call2 t IOp.shift_right a' b'
  | e => e

/-- Modelled from the spec: `can_prove` — true only when the expression
folds to the constant true (the real prover is likewise allowed to answer
`false` on anything it cannot show). -/
def can_prove (e : Expr) : Bool :=
  match foldConst e with
  | .IntImm t 1 => t.is_bool
  | _ => false

/-- Modelled from the spec: `simplify`, restricted to the constant folding
that the embedded call sites rely on. -/
def hsimplify (e : Expr) : Expr := foldConst e

/-! ## Intrinsic call constructors

The construction helpers (`widening_add(a, b)` etc. of `IROperator.cpp`)
are outside `src/`; their result types are modelled from the spec's data
model (spec section 3), with `widening_sub` / `widening_mul` given the
signed widened type on unsigned/mixed operands so as to agree with the
reference lowerings in `src/FindIntrinsics.cpp` (`lower_widening_sub`,
lines 1414-1420, computes exactly this type). -/

def widening_add (a b : Expr) : Expr := .Call2 a.etype.widen .widening_add a b

def widening_sub (a b : Expr) : Expr :=
  let wide := a.etype.widen
  let wide := if wide.is_uint then wide.with_code tint else wide
  .Call2 wide .widening_sub a b

def widening_mul (a b : Expr) : Expr :=
  let wide := a.etype.widen
  let wide := if a.etype.code == b.etype.code then wide else wide.with_code tint
  .Call2 wide .widening_mul a b

def widen_right_add (a b : Expr) : Expr := .Call2 a.etype .widen_right_add a b
def widen_right_sub (a b : Expr) : Expr := .Call2 a.etype .widen_right_sub a b
def widen_right_mul (a b : Expr) : Expr := .Call2 a.etype .widen_right_mul a b

def widening_shift_left (a b : Expr) : Expr := .Call2 a.etype.widen .widening_shift_left a b
def widening_shift_right (a b : Expr) : Expr := .Call2 a.etype.widen .widening_shift_right a b

def rounding_shift_left (a b : Expr) : Expr := .Call2 a.etype .rounding_shift_left a b
def rounding_shift_right (a b : Expr) : Expr := .Call2 a.etype .rounding_shift_right a b

def saturating_add (a b : Expr) : Expr := .Call2 a.etype .saturating_add a b
def saturating_sub (a b : Expr) : Expr := .Call2 a.etype .saturating_sub a b
def saturating_cast (t : HType) (a : Expr) : Expr := .Call1 t .saturating_cast a

def halving_add (a b : Expr) : Expr := .Call2 a.etype .halving_add a b
def halving_sub (a b : Expr) : Expr := .Call2 a.etype .halving_sub a b
def rounding_halving_add (a b : Expr) : Expr := .Call2 a.etype .rounding_halving_add a b

def mul_shift_right (a b q : Expr) : Expr := .Call3 a.etype .mul_shift_right a b q
def rounding_mul_shift_right (a b q : Expr) : Expr := .Call3 a.etype .rounding_mul_shift_right a b q

def sorted_avg (a b : Expr) : Expr := .Call2 a.etype .sorted_avg a b

/-- `absd`: the result is the unsigned type of the same width. -/
def absd (a b : Expr) : Expr := .Call2 (a.etype.with_code tuint) .absd a b

/-! ## Binary operator helpers (`IROperator.h`)

The embedded lowering code combines operands of the same type (the source
asserts as much) except for a few places that rely on `match_types`;
applying `matchBin` uniformly reproduces both behaviours. -/

/-- Lane matching only (the shift operators allow operands of different
bit widths but broadcast a scalar against a vector). -/
def matchLanes (a b : Expr) : Expr × Expr :=
  if a.etype.lanes == b.etype.lanes then (a, b)
  else if a.etype.lanes == 1 then (hcast (a.etype.with_lanes b.etype.lanes) a, b)
  else (a, hcast (b.etype.with_lanes a.etype.lanes) b)

def eadd (a b : Expr) : Expr := let (a, b) := matchBin a b; .Add a b
def esub (a b : Expr) : Expr := let (a, b) := matchBin a b; .Sub a b
def emul (a b : Expr) : Expr := let (a, b) := matchBin a b; .Mul a b
def ediv (a b : Expr) : Expr := let (a, b) := matchBin a b; .Div a b
def emin (a b : Expr) : Expr := let (a, b) := matchBin a b; .Min a b
def emax (a b : Expr) : Expr := let (a, b) := matchBin a b; .Max a b
def eeq (a b : Expr) : Expr := let (a, b) := matchBin a b; .EQ a b
def elt (a b : Expr) : Expr := let (a, b) := matchBin a b; .LT a b
def ele (a b : Expr) : Expr := let (a, b) := matchBin a b; .LE a b
def egt (a b : Expr) : Expr := let (a, b) := matchBin a b; .GT a b
def ege (a b : Expr) : Expr := let (a, b) := matchBin a b; .GE a b
def eshl (a b : Expr) : Expr := let (a, b) := matchLanes a b; .Call2 a.etype .shift_left a b
def eshr (a b : Expr) : Expr := let (a, b) := matchLanes a b; .Call2 a.etype .shift_right a b
def ebitand (a b : Expr) : Expr := let (a, b) := matchBin a b; .Call2 a.etype .bitwise_and a b
def ebitxor (a b : Expr) : Expr := let (a, b) := matchBin a b; .Call2 a.etype .bitwise_xor a b
def ebitnot (a : Expr) : Expr := .Call1 a.etype .bitwise_not a

/-- `min(e, c)` with an integer literal: the literal is made at `e`'s type. -/
def eminC (a : Expr) (c : Int) : Expr := .Min a (mkConst a.etype c)

/-- `max(e, c)` with an integer literal. -/
def emaxC (a : Expr) (c : Int) : Expr := .Max a (mkConst a.etype c)

/-- `clamp(a, lo, hi) = max(min(a, hi), lo)`. -/
def eclamp (a lo hi : Expr) : Expr := .Max (.Min a hi) lo

/-- `select(c, t, f)`. -/
def eselect (c a b : Expr) : Expr := .Select c a b

/-- `Type::min()` as an expression (`IntImm` for integer types, an opaque
`FloatImm` tag for floats, which no theorem evaluates). -/
def typeMinExpr (t : HType) : Expr :=
  if t.is_int_or_uint then mkConst t t.intMin else .FloatImm t (-1)

/-- `Type::max()` as an expression. -/
def typeMaxExpr (t : HType) : Expr :=
  if t.is_int_or_uint then mkConst t t.intMax else .FloatImm t 1

/-! ## The intrinsic lowerings of `src/FindIntrinsics.cpp` -/

/-- `widen(a)` (FindIntrinsics.cpp:21-24): cast to the widened type. -/
def widenE (a : Expr) : Expr := .Cast a.etype.widen a

/-- `narrow(a)` (FindIntrinsics.cpp:26-29). -/
def narrowE (a : Expr) : Expr := .Cast a.etype.narrow a

/-- `lossless_narrow(x)` (FindIntrinsics.cpp:31-33). -/
def lossless_narrow (x : Expr) : Option Expr := lossless_cast x.etype.narrow x

/-- `strip_widening_cast(x)` (FindIntrinsics.cpp:36-42): remove a widening
cast even if it changes the sign of the result. -/
def strip_widening_cast (x : Expr) : Option Expr :=
  match lossless_narrow x with
  | some n => some n
  | none => lossless_cast ((x.etype.narrow).with_code tuint) x

/-- `saturating_narrow(a)` (FindIntrinsics.cpp:44-47). -/
def saturating_narrow (a : Expr) : Expr := saturating_cast a.etype.narrow a

/-- `no_overflow_int(t)` (FindIntrinsics.cpp:50-52). -/
def no_overflow_int (t : HType) : Bool := t.is_int && t.bits ≥ 32

/-- `no_overflow(t)` (FindIntrinsics.cpp:55-57). -/
def no_overflow (t : HType) : Bool := t.is_float || no_overflow_int t

/-- `is_safe_for_add(e, max_depth)` (FindIntrinsics.cpp:63-85). -/
def is_safe_for_add_depth : Expr → Nat → Bool
  | _, 0 => false
  | .Add a b, d + 1 => is_safe_for_add_depth a d || is_safe_for_add_depth b d
  | .Sub a b, d + 1 => is_safe_for_add_depth a d || is_safe_for_add_depth b d
  | .Cast t v, d + 1 =>
      if t.bits > v.etype.bits then true
      else if t.bits == v.etype.bits then is_safe_for_add_depth v d
      else false
  | .Reinterpret t v, d + 1 =>
      if t.bits == v.etype.bits then is_safe_for_add_depth v d else false
  | .Call2 _ op _ _, _ + 1 =>
      op == IOp.widening_add || op == IOp.widening_sub ||
      op == IOp.widen_right_add || op == IOp.widen_right_sub
  | _, _ + 1 => false

/-- `is_safe_for_add(e)` (FindIntrinsics.cpp:87-89): probe depth
`bits/2 - 1`. -/
def is_safe_for_add (e : Expr) : Bool :=
  is_safe_for_add_depth e (e.etype.bits / 2 - 1)

/-- `find_and_subtract(e, round)` (FindIntrinsics.cpp:94-114): find and
remove an addition of exactly `round`. -/
def find_and_subtract : Expr → Expr → Option Expr
  | .Add a b, round =>
      match find_and_subtract a round with
      | some a' => some (.Add a' b)
      | none =>
          match find_and_subtract b round with
          | some b' => some (.Add a b')
          | none => none
  | .Sub a b, round =>
      -- we can't recurse into the negative part of a subtract
      match find_and_subtract a round with
      | some a' => some (.Sub a' b)
      | none => none
  | e, round => if can_prove (eeq e round) then some (make_zero e.etype) else none

/-- `lower_widen_right_add` (FindIntrinsics.cpp:1394-1396). -/
def lower_widen_right_add (a b : Expr) : Expr := eadd a (widenE b)

/-- `lower_widen_right_mul` (FindIntrinsics.cpp:1398-1400). -/
def lower_widen_right_mul (a b : Expr) : Expr := emul a (widenE b)

/-- `lower_widen_right_sub` (FindIntrinsics.cpp:1402-1404). -/
def lower_widen_right_sub (a b : Expr) : Expr := esub a (widenE b)

/-- `lower_widening_add` (FindIntrinsics.cpp:1406-1408). -/
def lower_widening_add (a b : Expr) : Expr := eadd (widenE a) (widenE b)

/-- `lower_widening_mul` (FindIntrinsics.cpp:1410-1412). -/
def lower_widening_mul (a b : Expr) : Expr := emul (widenE a) (widenE b)

/-- `lower_widening_sub` (FindIntrinsics.cpp:1414-1420): the wide type is
the widened operand type, switched to signed when that is unsigned. -/
def lower_widening_sub (a b : Expr) : Expr :=
  let wide := a.etype.widen
  let wide := if wide.is_uint then wide.with_code tint else wide
  .Sub (.Cast wide a) (.Cast wide b)

/-- `lower_widening_shift_left` (FindIntrinsics.cpp:1422-1424). -/
def lower_widening_shift_left (a b : Expr) : Expr := eshl (widenE a) b

/-- `lower_widening_shift_right` (FindIntrinsics.cpp:1426-1428). -/
def lower_widening_shift_right (a b : Expr) : Expr := eshr (widenE a) b

/-- `lower_rounding_shift_left` (FindIntrinsics.cpp:1430-1435). -/
def lower_rounding_shift_left (a b : Expr) : Expr :=
  let b_negative := eselect (elt b (make_zero b.etype)) (make_one a.etype) (make_zero a.etype)
  hsimplify (eadd (eshl a b) (ebitand b_negative (eshl a (eadd b (make_one b.etype)))))

/-- `lower_rounding_shift_right` (FindIntrinsics.cpp:1437-1457). -/
def lower_rounding_shift_right (a b : Expr) : Expr :=
  if is_positive_const b then
    if a.etype.is_uint then
      -- handle the rounding with a (rounding) averaging instruction
      let shift := hsimplify (esub b (make_one b.etype))
      let round := hsimplify (hcast a.etype (esub (eshl (make_one shift.etype) shift) (make_one shift.etype)))
      eshr (rounding_halving_add a round) shift
    else if is_safe_for_add a then
      let round := hsimplify (hcast a.etype (eshl (make_one b.etype) (esub b (make_one b.etype))))
      eshr (eadd a round) b
    else
      let b_positive := eselect (egt b (make_zero b.etype)) (make_one a.etype) (make_zero a.etype)
      hsimplify (eadd (eshr a b) (ebitand b_positive (eshr a (esub b (make_one b.etype)))))
  else
    let b_positive := eselect (egt b (make_zero b.etype)) (make_one a.etype) (make_zero a.etype)
    hsimplify (eadd (eshr a b) (ebitand b_positive (eshr a (esub b (make_one b.etype)))))

/-- `lower_saturating_add` (FindIntrinsics.cpp:1459-1464). -/
def lower_saturating_add (a b : Expr) : Expr :=
  eadd (hsimplify (eclamp a (esub (typeMinExpr a.etype) (eminC b 0))
                            (esub (typeMaxExpr a.etype) (emaxC b 0)))) b

/-- `lower_saturating_sub` (FindIntrinsics.cpp:1466-1471). -/
def lower_saturating_sub (a b : Expr) : Expr :=
  esub (hsimplify (eclamp a (eadd (typeMinExpr a.etype) (emaxC b 0))
                            (eadd (typeMaxExpr a.etype) (eminC b 0)))) b

/-- `lower_saturating_cast` (FindIntrinsics.cpp:1473-1512). -/
def lower_saturating_cast (t : HType) (a : Expr) : Expr :=
  if t.is_float && a.etype.is_float then
    -- for float to float, guarantee infinities are always pinned to range
    if t.bits < a.etype.bits then
      hcast t (eclamp a (typeMinExpr t) (typeMaxExpr t))
    else
      eclamp (hcast t a) (typeMinExpr t) (typeMaxExpr t)
  else if a.etype != t then
    if a.etype.is_float && !t.is_float && t.bits ≥ a.etype.bits then
      let e := emax a (typeMinExpr t)
      eselect (ege e (hcast e.etype (typeMaxExpr t))) (typeMaxExpr t) (hcast t e)
    else
      let min_bound : Option Expr :=
        if !a.etype.is_uint then lossless_cast a.etype (typeMinExpr t) else none
      let max_bound : Option Expr := lossless_cast a.etype (typeMaxExpr t)
      let e : Expr :=
        match min_bound, max_bound with
        | some lo, some hi => eclamp a lo hi
        | some lo, none => emax a lo
        | none, some hi => emin a hi
        | none, none => a
      hcast t e
  else a

/-- `lower_halving_add` (FindIntrinsics.cpp:1514-1518). -/
def lower_halving_add (a b : Expr) : Expr :=
  eadd (ebitand a b) (eshr (ebitxor a b) (make_one a.etype))

/-- `lower_halving_sub` (FindIntrinsics.cpp:1520-1541). -/
def lower_halving_sub (a b : Expr) : Expr :=
  let e := rounding_halving_add a (ebitnot b)
  if a.etype.is_uint then
    eadd e (mkConst e.etype ((2 : Int) ^ (a.etype.bits - 1)))
  else
    e

/-- `lower_rounding_halving_add` (FindIntrinsics.cpp:1543-1546). -/
def lower_rounding_halving_add (a b : Expr) : Expr :=
  eadd (halving_add a b) (ebitand (ebitxor a b) (make_one a.etype))

/-- `lower_sorted_avg` (FindIntrinsics.cpp:1548-1551). -/
def lower_sorted_avg (a b : Expr) : Expr :=
  eadd a (eshr (esub b a) (make_one a.etype))

/-- `lower_absd` (FindIntrinsics.cpp:1553-1561); the `unique_name`
counters are modelled by the fixed names the source seeds them with. -/
def lower_absd (a b : Expr) : Expr :=
  let a_var := Expr.Var a.etype "a"
  let b_var := Expr.Var b.etype "b"
  .LetE "a" a (.LetE "b" b
    (.Select (.LT a_var b_var) (.Sub b_var a_var) (.Sub a_var b_var)))

/-- `lower_mul_shift_right` (FindIntrinsics.cpp:1563-1602). -/
def lower_mul_shift_right (a b q : Expr) : Expr :=
  let full_q : Int := (a.etype.bits : Int) - (if a.etype.is_int then 1 else 0)
  let try_full : Option Expr :=
    if can_prove (elt q (mkConst q.etype full_q)) then
      let missing_q := esub (mkConst q.etype full_q) q
      let new_b := hsimplify (eshl b missing_q)
      if isConst new_b && can_prove (eeq (eshr new_b missing_q) b) then
        some (mul_shift_right a new_b (mkConst q.etype full_q))
      else
        let new_a := hsimplify (eshl a missing_q)
        if isConst new_a && can_prove (eeq (eshr new_a missing_q) a) then
          some (mul_shift_right new_a b (mkConst q.etype full_q))
        else none
    else none
  match try_full with
  | some r => r
  | none =>
    if can_prove (egt q (mkConst q.etype (a.etype.bits : Int))) then
      -- an exact upper-half multiply followed by an extra shift
      let result := mul_shift_right a b (mkConst q.etype (a.etype.bits : Int))
      eshr result (hsimplify (esub q (mkConst q.etype (a.etype.bits : Int))))
    else
      -- if all else fails, just widen, shift, and narrow
      let result := eshr (widening_mul a b) q
      if !can_prove (ege q (mkConst q.etype (a.etype.bits : Int))) then
        saturating_narrow result
      else
        narrowE result

/-- `emulate_signed_rounding_mul_shift_right_31` (FindIntrinsics.cpp:1636-1671):
the hand-unrolled 16 by 16 partial-product scheme for the 32-bit signed
rounding multiply with shift 31. -/
def emulate_signed_rounding_mul_shift_right_31 (a b : Expr) : Expr :=
  let int16 := IntT 16 a.etype.lanes
  let uint16 := UIntT 16 a.etype.lanes
  let a_hi := hcast int16 (eshr a (mkConst a.etype 16))
  let b_hi := hcast int16 (eshr b (mkConst b.etype 16))
  let a_lo := hcast uint16 a
  let b_lo := hcast uint16 b
  let ab_hi := widening_mul a_hi b_hi
  let ab_mid0 := widening_mul a_hi b_lo
  let ab_mid1 := widening_mul b_hi a_lo
  let ab_lo_shifted := mul_shift_right a_lo b_lo (mkConst uint16 16)
  let lo := eshr (halving_add (eadd ab_mid0 (mkConst ab_mid0.etype 16384))
                              (eadd ab_mid1 ab_lo_shifted))
                 (mkConst ab_mid0.etype 14)
  saturating_add ab_hi (eadd ab_hi lo)

/-- `lower_rounding_mul_shift_right` (FindIntrinsics.cpp:1673-1714). -/
def lower_rounding_mul_shift_right (a b q : Expr) : Expr :=
  if isConstV q 31 && a.etype.element_of == IntT 32 then
    emulate_signed_rounding_mul_shift_right_31 a b
  else
    let full_q : Int := (a.etype.bits : Int) - (if a.etype.is_int then 1 else 0)
    let try_full : Option Expr :=
      if can_prove (elt q (mkConst q.etype full_q)) then
        let missing_q := esub (mkConst q.etype full_q) q
        let new_b := hsimplify (eshl b missing_q)
        if isConst new_b && can_prove (eeq (eshr new_b missing_q) b) then
          some (rounding_mul_shift_right a new_b (mkConst q.etype full_q))
        else
          let new_a := hsimplify (eshl a missing_q)
          if isConst new_a && can_prove (eeq (eshr new_a missing_q) a) then
            some (rounding_mul_shift_right new_a b (mkConst q.etype full_q))
          else none
      else none
    match try_full with
    | some r => r
    | none =>
      -- if all else fails, just widen, shift, and narrow
      let result := rounding_shift_right (widening_mul a b) q
      if !can_prove (ege q (mkConst q.etype (a.etype.bits : Int))) then
        saturating_narrow result
      else
        narrowE result

/-- `lower_intrinsic` (FindIntrinsics.cpp:1736-1800): the efficient
lowering dispatch over intrinsic op-codes; `none` for a call that is not
one of the listed intrinsics. -/
def lower_intrinsic : Expr → Option Expr
  | .Call2 _ .widen_right_add a b => some (lower_widen_right_add a b)
  | .Call2 _ .widen_right_mul a b => some (lower_widen_right_mul a b)
  | .Call2 _ .widen_right_sub a b => some (lower_widen_right_sub a b)
  | .Call2 _ .widening_add a b => some (lower_widening_add a b)
  | .Call2 _ .widening_mul a b => some (lower_widening_mul a b)
  | .Call2 _ .widening_sub a b => some (lower_widening_sub a b)
  | .Call2 _ .saturating_add a b => some (lower_saturating_add a b)
  | .Call2 _ .saturating_sub a b => some (lower_saturating_sub a b)
  | .Call1 t .saturating_cast a => some (lower_saturating_cast t a)
  | .Call2 _ .widening_shift_left a b => some (lower_widening_shift_left a b)
  | .Call2 _ .widening_shift_right a b => some (lower_widening_shift_right a b)
  | .Call2 _ .rounding_shift_right a b => some (lower_rounding_shift_right a b)
  | .Call2 _ .rounding_shift_left a b => some (lower_rounding_shift_left a b)
  | .Call2 _ .halving_add a b => some (lower_halving_add a b)
  | .Call2 _ .halving_sub a b => some (lower_halving_sub a b)
  | .Call2 _ .rounding_halving_add a b => some (lower_rounding_halving_add a b)
  | .Call3 _ .rounding_mul_shift_right a b q => some (lower_rounding_mul_shift_right a b q)
  | .Call3 _ .mul_shift_right a b q => some (lower_mul_shift_right a b q)
  | .Call2 _ .sorted_avg a b => some (lower_sorted_avg a b)
  | .Call2 _ .absd a b => some (lower_absd a b)
  | _ => none

/-- `lower_intrinsic_semantically` (FindIntrinsics.cpp:1812-1927): the
reference lowering that goes through the widened type, falling back to
`lower_intrinsic` for types too wide to widen further. -/
def lower_intrinsic_semantically : Expr → Option Expr
  | .Call2 _ .widen_right_add a b => some (eadd a (widenE b))
  | .Call2 _ .widen_right_mul a b => some (emul a (widenE b))
  | .Call2 _ .widen_right_sub a b => some (esub a (widenE b))
  | .Call2 _ .widening_add a b => some (lower_widening_add a b)
  | .Call2 _ .widening_mul a b => some (lower_widening_mul a b)
  | .Call2 _ .widening_sub a b => some (lower_widening_sub a b)
  | .Call2 t .saturating_add a b =>
      if t.bits > 32 then lower_intrinsic (.Call2 t .saturating_add a b)
      else some (saturating_narrow (eadd (widenE a) (widenE b)))
  | .Call2 t .saturating_sub a b =>
      if t.bits > 32 then lower_intrinsic (.Call2 t .saturating_sub a b)
      else some (saturating_narrow (widening_sub a b))
  | .Call1 t .saturating_cast a => some (lower_saturating_cast t a)
  | .Call2 _ .widening_shift_left a b => some (lower_widening_shift_left a b)
  | .Call2 _ .widening_shift_right a b => some (lower_widening_shift_right a b)
  | .Call2 t .rounding_shift_right x y =>
      if t.bits > 32 then lower_intrinsic (.Call2 t .rounding_shift_right x y)
      else
        let zero := make_zero x.etype
        let one := make_one x.etype
        let round := eselect (elt y zero) (eshl one (eadd y one)) zero
        some (saturating_narrow (eshr (widening_add x round) y))
  | .Call2 t .rounding_shift_left x y =>
      if t.bits > 32 then lower_intrinsic (.Call2 t .rounding_shift_left x y)
      else
        let zero := make_zero x.etype
        let one := make_one x.etype
        let round := eselect (elt y zero) (eshr one (eadd y one)) zero
        some (saturating_narrow (eshl (widening_add x round) y))
  | .Call2 t .halving_add x y =>
      if t.bits > 32 then lower_intrinsic (.Call2 t .halving_add x y)
      else some (narrowE (ediv (eadd (widenE x) (widenE y)) (mkConst x.etype.widen 2)))
  | .Call2 t .halving_sub x y =>
      if t.bits > 32 then lower_intrinsic (.Call2 t .halving_sub x y)
      else some (narrowE (ediv (esub (widenE x) (widenE y)) (mkConst x.etype.widen 2)))
  | .Call2 t .rounding_halving_add x y =>
      if t.bits > 32 then lower_intrinsic (.Call2 t .rounding_halving_add x y)
      else some (narrowE (ediv (eadd (eadd (widenE x) (widenE y)) (make_one x.etype.widen)) (mkConst x.etype.widen 2)))
  | .Call3 t .rounding_mul_shift_right x y z =>
      if t.bits > 16 then lower_intrinsic (.Call3 t .rounding_mul_shift_right x y z)
      else some (saturating_narrow (rounding_shift_right (widening_mul x y) z))
  | .Call3 t .mul_shift_right x y z =>
      if t.bits > 32 then lower_intrinsic (.Call3 t .mul_shift_right x y z)
      else some (saturating_narrow (eshr (widening_mul x y) z))
  | .Call2 _ .sorted_avg a b => some (lower_sorted_avg a b)
  | .Call2 _ .absd a b => some (lower_absd a b)
  | _ => none

/-! ## The `FindIntrinsics` recognizer (`src/FindIntrinsics.cpp:200-1167`)

The mutator is embedded with explicit fuel; every visit method consumes
one unit, so any concrete run below terminates with room to spare.  The
opt-in synthesized rule bank is guarded by `HL_ENABLE_RAKE_RULES`, which
the spec documents as unset by default (spec section 6), so the guard is
the constant false and the guarded rules are unreachable. -/

/-- `find_intrinsics_for_type` (FindIntrinsics.cpp:16-19). -/
def find_intrinsics_for_type (t : HType) : Bool := t.is_vector && t.bits ≥ 8

/-- `FindIntrinsics::enable_synthesized_rules` (FindIntrinsics.cpp:211-213):
reads `HL_ENABLE_RAKE_RULES`, unset in the configuration under study. -/
def enable_synthesized_rules : Bool := false

/-- `IRMutator`'s default behaviour: rebuild the node with mutated
children. -/
def mapChildren (f : Expr → Expr) : Expr → Expr
  | .IntImm t v => .IntImm t v
  | .FloatImm t g => .FloatImm t g
  | .Var t n => .Var t n
  | .Cast t e => .Cast t (f e)
  | .Reinterpret t e => .Reinterpret t (f e)
  | .Add a b => .Add (f a) (f b)
  | .Sub a b => .Sub (f a) (f b)
  | .Mul a b => .Mul (f a) (f b)
  | .Div a b => .Div (f a) (f b)
  | .Min a b => .Min (f a) (f b)
  | .Max a b => .Max (f a) (f b)
  | .EQ a b => .EQ (f a) (f b)
  | .LT a b => .LT (f a) (f b)
  | .LE a b => .LE (f a) (f b)
  | .GT a b => .GT (f a) (f b)
  | .GE a b => .GE (f a) (f b)
  | .Select c a b => .Select (f c) (f a) (f b)
  | .LetE n v b => .LetE n (f v) (f b)
  | .Call1 t op a => .Call1 t op (f a)
  | .Call2 t op a b => .Call2 t op (f a) (f b)
  | .Call3 t op a b c => .Call3 t op (f a) (f b) (f c)

/-- The `LowerIntrinsics` mutator (FindIntrinsics.cpp:1931-1951) behind
`lower_intrinsics`: lower every intrinsic call, recursively. -/
def lowerIntrinsicsE : Nat → Expr → Expr
  | 0, e => e
  | fuel + 1, e =>
      match lower_intrinsic e with
      | some l => lowerIntrinsicsE fuel l
      | none => mapChildren (lowerIntrinsicsE fuel) e

/-- `is_const_power_of_two_integer(e, &bits)`. -/
def is_const_power_of_two_integer (e : Expr) : Option Nat :=
  match asConst e with
  | some v => if v > 0 && v == 2 ^ (v.toNat.log2) then some v.toNat.log2 else none
  | none => none

/-- The sign codes tried by `visit(Add)`/`visit(Sub)` when narrowing both
operands for a widening op (FindIntrinsics.cpp:224, 361): the original
result code, then unsigned. -/
def addSubWideningCodes (t : HType) : List TypeCode := [t.code, tuint]

/-- The sign codes tried when looking for `widen_right_*` intrinsics
(FindIntrinsics.cpp:242, 391, 493): the original result code, then
unsigned, then signed. -/
def widenRightCodes (t : HType) : List TypeCode := [t.code, tuint, tint]

/-- The narrowing search of the widening loops: the first sign code under
which both operands losslessly narrow to the half-width type wins. -/
def firstNarrowPair (t : HType) : List TypeCode → Expr → Expr → Option (Expr × Expr)
  | [], _, _ => none
  | c :: rest, a, b =>
      let narrow := (t.narrow).with_code c
      match lossless_cast narrow a, lossless_cast narrow b with
      | some na, some nb => some (na, nb)
      | _, _ => firstNarrowPair t rest a b

/-- The narrowing search of `visit(Sub)`'s `widen_right_sub` loop: only
the right operand is narrowed; first sign code that succeeds wins. -/
def firstNarrowSingle (t : HType) : List TypeCode → Expr → Option Expr
  | [], _ => none
  | c :: rest, e =>
      match lossless_cast ((t.narrow).with_code c) e with
      | some n => some n
      | none => firstNarrowSingle t rest e

/-- The narrowing search of the `widen_right_add`/`widen_right_mul` loops:
per sign code, the left operand is preferred; the result records which
operand narrowed.  (When both narrow, the source's `internal_assert`
aborts the compile — that state is unreachable once the widening search
above has failed, and is mapped to `none` here.) -/
def firstWidenRightPick (t : HType) : List TypeCode → Expr → Expr → Option (Bool × Expr)
  | [], _, _ => none
  | c :: rest, a, b =>
      let narrow := (t.narrow).with_code c
      match lossless_cast narrow a, lossless_cast narrow b with
      | some na, none => some (true, na)
      | none, some nb => some (false, nb)
      | some _, some _ => none
      | none, none => firstWidenRightPick t rest a b

/-- The double-narrowing search of the `widening_add`/`widening_sub`
blocks in `visit(Call)` (FindIntrinsics.cpp:1000-1020): both arguments
must losslessly narrow two steps, codes tried in order. -/
def firstDoubleNarrowPair (t : HType) : List TypeCode → Expr → Expr → Option (Expr × Expr)
  | [], _, _ => none
  | c :: rest, a, b =>
      let narrow_t := ((t.narrow).narrow).with_code c
      match lossless_cast narrow_t a, lossless_cast narrow_t b with
      | some na, some nb => some (na, nb)
      | _, _ => firstDoubleNarrowPair t rest a b
/-! ## Rewrite-rule predicates shared by the rewriters

The `IRMatcher` predicates that the rule lists of `visit(Cast)` and
`visit(Call)` bind locally (FindIntrinsics.cpp:642-647, 843-865). -/

/-- `is_x_same_int`: the matched operand has the visited type's (int)
code and bit width. -/
def isXSameInt (t : HType) (x : Expr) : Bool :=
  t.is_int && x.etype.is_int && x.etype.bits == t.bits

/-- `is_x_same_uint`. -/
def isXSameUint (t : HType) (x : Expr) : Bool :=
  t.is_uint && x.etype.is_uint && x.etype.bits == t.bits

/-- `is_x_same_int_or_uint`. -/
def isXSameIntUint (t : HType) (x : Expr) : Bool :=
  isXSameInt t x || isXSameUint t x

/-- `x_y_same_sign` as bound in `visit(Cast)` (FindIntrinsics.cpp:646). -/
def castXYSameSign (x y : Expr) : Bool :=
  (x.etype.is_int && y.etype.is_int) || (x.etype.is_uint && y.etype.is_uint)

/-- `x_y_same_sign` as bound in `visit(Call)` (FindIntrinsics.cpp:847);
note the equality form on the int side, unlike the `visit(Cast)` one. -/
def callXYSameSign (x y : Expr) : Bool :=
  (x.etype.is_int == y.etype.is_int) || (x.etype.is_uint && y.etype.is_uint)

/-- `is_y_narrow_uint` (FindIntrinsics.cpp:647). -/
def isYNarrowUint (t : HType) (y : Expr) : Bool :=
  t.is_uint && y.etype.is_uint && y.etype.bits == t.bits / 2

/-- `upper` of `visit(Cast)` (FindIntrinsics.cpp:632):
`cast(value.type(), op->type.max())`. -/
def castUpper (t : HType) (value : Expr) : Expr := hcast value.etype (typeMaxExpr t)

/-- `lower` of `visit(Cast)` (FindIntrinsics.cpp:631). -/
def castLower (t : HType) (value : Expr) : Expr := hcast value.etype (typeMinExpr t)

/-- `is_x_wider_int_or_uint` of `visit(Call)` (FindIntrinsics.cpp:849). -/
def isXWiderIntUint (t : HType) (x : Expr) : Bool :=
  (t.is_int && x.etype.is_int && x.etype.bits == 2 * t.bits) ||
  (t.is_uint && x.etype.is_uint && x.etype.bits == 2 * t.bits)

/-- `opposite_type` of `visit(Call)` (FindIntrinsics.cpp:850). -/
def oppositeType (t : HType) : HType :=
  if t.is_int then t.with_code tuint else t.with_code tint

/-- `is_x_wider_opposite_int` of `visit(Call)` (FindIntrinsics.cpp:851). -/
def isXWiderOpposite (t : HType) (x : Expr) : Bool :=
  (t.is_int && x.etype.is_uint && x.etype.bits == 2 * t.bits) ||
  (t.is_uint && x.etype.is_int && x.etype.bits == 2 * t.bits)

/-- Run a rule list in order; the first rule that fires wins, exactly as
the short-circuiting `rewrite(...) || rewrite(...)` chains behave. -/
def firstRule (t : HType) (e : Expr) : List (HType → Expr → Option Expr) → Option Expr
  | [] => none
  | r :: rest =>
      match r t e with
      | some res => some res
      | none => firstRule t e rest

/-! ## The rewrite rules of `FindIntrinsics::visit(const Cast *)`
(FindIntrinsics.cpp:648-785), one definition per `rewrite(...)` call, in
source order. -/

/-- `max(min(widening_add(x, y), upper), lower) -> saturating_add(x, y)`. -/
def castRule01 (t : HType) (value : Expr) : Option Expr :=
  match value with
  | .Max (.Min (.Call2 _ .widening_add x y) u) l =>
      if u == castUpper t value && l == castLower t value && isXSameIntUint t x then
        some (saturating_add x y)
      else none
  | _ => none

/-- `max(min(widening_sub(x, y), upper), lower) -> saturating_sub(x, y)`. -/
def castRule02 (t : HType) (value : Expr) : Option Expr :=
  match value with
  | .Max (.Min (.Call2 _ .widening_sub x y) u) l =>
      if u == castUpper t value && l == castLower t value && isXSameIntUint t x then
        some (saturating_sub x y)
      else none
  | _ => none

/-- `min(cast(signed_type_wide, widening_add(x, y)), upper) -> saturating_add(x, y)`. -/
def castRule03 (t : HType) (value : Expr) : Option Expr :=
  match value with
  | .Min (.Cast ct (.Call2 _ .widening_add x y)) u =>
      if ct == (t.widen).with_code tint && u == castUpper t value && isXSameUint t x then
        some (saturating_add x y)
      else none
  | _ => none

/-- `min(widening_add(x, y), upper) -> saturating_add(x, y)` (uint). -/
def castRule04 (t : HType) (value : Expr) : Option Expr :=
  match value with
  | .Min (.Call2 _ .widening_add x y) u =>
      if u == castUpper t value && t.is_uint && isXSameUint t x then
        some (saturating_add x y)
      else none
  | _ => none

/-- `max(widening_sub(x, y), lower) -> saturating_sub(x, y)` (uint). -/
def castRule05 (t : HType) (value : Expr) : Option Expr :=
  match value with
  | .Max (.Call2 _ .widening_sub x y) l =>
      if l == castLower t value && t.is_uint && isXSameUint t x then
        some (saturating_sub x y)
      else none
  | _ => none

/-- `max(min(x, upper), lower) -> saturating_cast(t, x)`. -/
def castRule06 (t : HType) (value : Expr) : Option Expr :=
  match value with
  | .Max (.Min x u) l =>
      if u == castUpper t value && l == castLower t value then
        some (saturating_cast t x)
      else none
  | _ => none

/-- `min(x, upper) -> saturating_cast(t, x)` for unsigned `x`. -/
def castRule07 (t : HType) (value : Expr) : Option Expr :=
  match value with
  | .Min x u =>
      if u == castUpper t value && x.etype.is_uint then some (saturating_cast t x) else none
  | _ => none

/-- `shift_right(widening_add(x, c0), 1) -> rounding_halving_add(x, c0 - 1)`
for positive `c0`, unsigned. -/
def castRule08 (t : HType) (value : Expr) : Option Expr :=
  match value with
  | .Call2 _ .shift_right (.Call2 _ .widening_add x c0e) sh =>
      match asConst c0e, asConst sh with
      | some c0, some 1 =>
          if c0 > 0 && isXSameUint t x then
            some (rounding_halving_add x (mkConst c0e.etype (c0 - 1)))
          else none
      | _, _ => none
  | _ => none

/-- `shift_right(widening_add(x, y), 1) -> halving_add(x, y)`. -/
def castRule09 (t : HType) (value : Expr) : Option Expr :=
  match value with
  | .Call2 _ .shift_right (.Call2 _ .widening_add x y) sh =>
      if isConstV sh 1 && isXSameIntUint t x then some (halving_add x y) else none
  | _ => none

/-- `shift_right(widening_add(x, c0), c1) -> rounding_shift_right(x, cast(t, c1))`
when `c0 == 1 << (c1 - 1)`. -/
def castRule10 (t : HType) (value : Expr) : Option Expr :=
  match value with
  | .Call2 _ .shift_right (.Call2 _ .widening_add x c0e) c1e =>
      match asConst c0e, asConst c1e with
      | some c0, some c1 =>
          if c1 ≥ 1 && c0 == 2 ^ (c1 - 1).toNat && isXSameIntUint t x then
            some (rounding_shift_right x (hcast t c1e))
          else none
      | _, _ => none
  | _ => none

/-- `shift_right(widening_add(x, c0), c1)` with positive constants, unsigned:
`shift_right(rounding_halving_add(x, cast(t, c0 - 1)), cast(t, c1 - 1))`. -/
def castRule11 (t : HType) (value : Expr) : Option Expr :=
  match value with
  | .Call2 _ .shift_right (.Call2 _ .widening_add x c0e) c1e =>
      match asConst c0e, asConst c1e with
      | some c0, some c1 =>
          if c0 > 0 && c1 > 0 && isXSameUint t x then
            some (eshr (rounding_halving_add x (hcast t (mkConst c0e.etype (c0 - 1))))
                       (hcast t (mkConst c1e.etype (c1 - 1))))
          else none
      | _, _ => none
  | _ => none

/-- `shift_right(widening_add(x, y), c0) ->
shift_right(halving_add(x, y), cast(t, c0 - 1))` for positive `c0`. -/
def castRule12 (t : HType) (value : Expr) : Option Expr :=
  match value with
  | .Call2 _ .shift_right (.Call2 _ .widening_add x y) c0e =>
      match asConst c0e with
      | some c0 =>
          if c0 > 0 && isXSameIntUint t x then
            some (eshr (halving_add x y) (hcast t (mkConst c0e.etype (c0 - 1))))
          else none
      | none => none
  | _ => none

/-- `shift_right(widening_sub(x, y), 1) -> halving_sub(x, y)`. -/
def castRule13 (t : HType) (value : Expr) : Option Expr :=
  match value with
  | .Call2 _ .shift_right (.Call2 _ .widening_sub x y) sh =>
      if isConstV sh 1 && isXSameIntUint t x then some (halving_sub x y) else none
  | _ => none

/-- `halving_add(widening_add(x, y), 1) -> rounding_halving_add(x, y)`. -/
def castRule14 (t : HType) (value : Expr) : Option Expr :=
  match value with
  | .Call2 _ .halving_add (.Call2 _ .widening_add x y) one =>
      if isConstV one 1 && isXSameIntUint t x then some (rounding_halving_add x y) else none
  | _ => none

/-- `halving_add(widening_add(x, 1), y) -> rounding_halving_add(x, y)`. -/
def castRule15 (t : HType) (value : Expr) : Option Expr :=
  match value with
  | .Call2 _ .halving_add (.Call2 _ .widening_add x one) y =>
      if isConstV one 1 && isXSameIntUint t x then some (rounding_halving_add x y) else none
  | _ => none

/-- `rounding_shift_right(widening_add(x, y), 1) -> rounding_halving_add(x, y)`. -/
def castRule16 (t : HType) (value : Expr) : Option Expr :=
  match value with
  | .Call2 _ .rounding_shift_right (.Call2 _ .widening_add x y) one =>
      if isConstV one 1 && isXSameIntUint t x then some (rounding_halving_add x y) else none
  | _ => none

/-- `max(min(shift_right(widening_mul(x, y), z), upper), lower) ->
mul_shift_right(x, y, cast(unsigned, z))`. -/
def castRule17 (t : HType) (value : Expr) : Option Expr :=
  match value with
  | .Max (.Min (.Call2 _ .shift_right (.Call2 _ .widening_mul x y) z) u) l =>
      if u == castUpper t value && l == castLower t value &&
         isXSameIntUint t x && castXYSameSign x y && z.etype.is_uint then
        some (mul_shift_right x y (hcast (t.with_code tuint) z))
      else none
  | _ => none

/-- The rounding variant of `castRule17`. -/
def castRule18 (t : HType) (value : Expr) : Option Expr :=
  match value with
  | .Max (.Min (.Call2 _ .rounding_shift_right (.Call2 _ .widening_mul x y) z) u) l =>
      if u == castUpper t value && l == castLower t value &&
         isXSameIntUint t x && castXYSameSign x y && z.etype.is_uint then
        some (rounding_mul_shift_right x y (hcast (t.with_code tuint) z))
      else none
  | _ => none

/-- `min(shift_right(widening_mul(x, y), z), upper) -> mul_shift_right`
(uint path, one-sided clamp). -/
def castRule19 (t : HType) (value : Expr) : Option Expr :=
  match value with
  | .Min (.Call2 _ .shift_right (.Call2 _ .widening_mul x y) z) u =>
      if u == castUpper t value && isXSameUint t x && castXYSameSign x y && z.etype.is_uint then
        some (mul_shift_right x y (hcast (t.with_code tuint) z))
      else none
  | _ => none

/-- The rounding variant of `castRule19`. -/
def castRule20 (t : HType) (value : Expr) : Option Expr :=
  match value with
  | .Min (.Call2 _ .rounding_shift_right (.Call2 _ .widening_mul x y) z) u =>
      if u == castUpper t value && isXSameUint t x && castXYSameSign x y && z.etype.is_uint then
        some (rounding_mul_shift_right x y (hcast (t.with_code tuint) z))
      else none
  | _ => none

/-- `min(shift_right(widening_mul(x, y), c0), upper) -> mul_shift_right`
for signed with `c0 >= bits - 1`. -/
def castRule21 (t : HType) (value : Expr) : Option Expr :=
  match value with
  | .Min (.Call2 _ .shift_right (.Call2 _ .widening_mul x y) c0e) u =>
      match asConst c0e with
      | some c0 =>
          if u == castUpper t value && isXSameInt t x && castXYSameSign x y &&
             c0 ≥ (t.bits : Int) - 1 then
            some (mul_shift_right x y (hcast (t.with_code tuint) c0e))
          else none
      | none => none
  | _ => none

/-- The rounding variant of `castRule21`. -/
def castRule22 (t : HType) (value : Expr) : Option Expr :=
  match value with
  | .Min (.Call2 _ .rounding_shift_right (.Call2 _ .widening_mul x y) c0e) u =>
      match asConst c0e with
      | some c0 =>
          if u == castUpper t value && isXSameInt t x && castXYSameSign x y &&
             c0 ≥ (t.bits : Int) - 1 then
            some (rounding_mul_shift_right x y (hcast (t.with_code tuint) c0e))
          else none
      | none => none
  | _ => none

/-- `shift_right(widening_mul(x, y), c0) -> mul_shift_right` for
`c0 >= bits` (no saturation needed). -/
def castRule23 (t : HType) (value : Expr) : Option Expr :=
  match value with
  | .Call2 _ .shift_right (.Call2 _ .widening_mul x y) c0e =>
      match asConst c0e with
      | some c0 =>
          if isXSameIntUint t x && castXYSameSign x y && c0 ≥ (t.bits : Int) then
            some (mul_shift_right x y (hcast (t.with_code tuint) c0e))
          else none
      | none => none
  | _ => none

/-- The rounding variant of `castRule23`. -/
def castRule24 (t : HType) (value : Expr) : Option Expr :=
  match value with
  | .Call2 _ .rounding_shift_right (.Call2 _ .widening_mul x y) c0e =>
      match asConst c0e with
      | some c0 =>
          if isXSameIntUint t x && castXYSameSign x y && c0 ≥ (t.bits : Int) then
            some (rounding_mul_shift_right x y (hcast (t.with_code tuint) c0e))
          else none
      | none => none
  | _ => none

/-- `shift_right(widening_mul(x, cast(t, y)), c0) -> mul_shift_right` for
narrow unsigned `y` and `c0 >= bits / 2`. -/
def castRule25 (t : HType) (value : Expr) : Option Expr :=
  match value with
  | .Call2 _ .shift_right (.Call2 _ .widening_mul x (.Cast ct y)) c0e =>
      match asConst c0e with
      | some c0 =>
          if ct == t && isXSameIntUint t x && isYNarrowUint t y && c0 ≥ ((t.bits : Int) / 2) then
            some (mul_shift_right x (.Cast t y) (hcast (t.with_code tuint) c0e))
          else none
      | none => none
  | _ => none

/-- The rounding variant of `castRule25`. -/
def castRule26 (t : HType) (value : Expr) : Option Expr :=
  match value with
  | .Call2 _ .rounding_shift_right (.Call2 _ .widening_mul x (.Cast ct y)) c0e =>
      match asConst c0e with
      | some c0 =>
          if ct == t && isXSameIntUint t x && isYNarrowUint t y && c0 ≥ ((t.bits : Int) / 2) then
            some (rounding_mul_shift_right x (.Cast t y) (hcast (t.with_code tuint) c0e))
          else none
      | none => none
  | _ => none

/-- Mirror image of `castRule25` (the narrow factor on the left). -/
def castRule27 (t : HType) (value : Expr) : Option Expr :=
  match value with
  | .Call2 _ .shift_right (.Call2 _ .widening_mul (.Cast ct y) x) c0e =>
      match asConst c0e with
      | some c0 =>
          if ct == t && isXSameIntUint t x && isYNarrowUint t y && c0 ≥ ((t.bits : Int) / 2) then
            some (mul_shift_right (.Cast t y) x (hcast (t.with_code tuint) c0e))
          else none
      | none => none
  | _ => none

/-- The rounding variant of `castRule27`. -/
def castRule28 (t : HType) (value : Expr) : Option Expr :=
  match value with
  | .Call2 _ .rounding_shift_right (.Call2 _ .widening_mul (.Cast ct y) x) c0e =>
      match asConst c0e with
      | some c0 =>
          if ct == t && isXSameIntUint t x && isYNarrowUint t y && c0 ≥ ((t.bits : Int) / 2) then
            some (rounding_mul_shift_right (.Cast t y) x (hcast (t.with_code tuint) c0e))
          else none
      | none => none
  | _ => none

/-- `shift_right(cast(op_type_wide, widening_sub(x, y)), 1) -> halving_sub(x, y)`. -/
def castRule29 (t : HType) (value : Expr) : Option Expr :=
  match value with
  | .Call2 _ .shift_right (.Cast ct (.Call2 _ .widening_sub x y)) sh =>
      if ct == t.widen && isConstV sh 1 && isXSameIntUint t x then some (halving_sub x y) else none
  | _ => none

/-- The rewrite-rule list of `FindIntrinsics::visit(const Cast *)`
(FindIntrinsics.cpp:648-785) in source order. -/
def castRules (t : HType) (value : Expr) : Option Expr :=
  firstRule t value
    [castRule01, castRule02, castRule03, castRule04, castRule05, castRule06,
     castRule07, castRule08, castRule09, castRule10, castRule11, castRule12,
     castRule13, castRule14, castRule15, castRule16, castRule17, castRule18,
     castRule19, castRule20, castRule21, castRule22, castRule23, castRule24,
     castRule25, castRule26, castRule27, castRule28, castRule29]

/-- The three wide-rounding-shift patterns of FindIntrinsics.cpp:797-800. -/
def castWideMatch (t : HType) (value : Expr) : Option Expr :=
  let isXWide (x : Expr) : Bool :=
    (t.is_int && x.etype.is_int && x.etype.bits == 2 * t.bits) ||
    (t.is_uint && x.etype.is_uint && x.etype.bits == 2 * t.bits)
  match value with
  | .Max (.Min (.Call2 _ .rounding_shift_right x y) u) l =>
      if u == castUpper t value && l == castLower t value && isXWide x then
        some (rounding_shift_right x y)
      else none
  | .Call2 _ .rounding_shift_right x y =>
      if isXWide x then some (rounding_shift_right x y) else none
  | .Call2 _ .rounding_shift_left x y =>
      if isXWide x then some (rounding_shift_left x y) else none
  | _ => none

/-- The widened-rounding-shift cleanup of `visit(const Cast *)`
(FindIntrinsics.cpp:787-813): a rounding shift performed in the doubled
width is narrowed when its operands narrow losslessly, except that a
saturated (min/max-clamped) value only permits it for a provably right
(resp. left) shift.  Returns the replacement call for the caller to
mutate; `origValue` is the unmutated cast operand (`op->value`), used by
the saturation test. -/
def castWideCleanup (t : HType) (origValue value : Expr) : Option Expr :=
  match castWideMatch t value with
  | some (.Call2 _ sop sa sb) =>
      let is_saturated : Bool :=
        match origValue with
        | .Max _ _ => true
        | .Min _ _ => true
        | _ => false
      (match lossless_cast t sa, lossless_cast (t.with_code sb.etype.code) sb with
       | some a, some b =>
           if !is_saturated ||
              (sop == IOp.rounding_shift_right && can_prove (ege b (mkConst b.etype 0))) ||
              (sop == IOp.rounding_shift_left && can_prove (ele b (mkConst b.etype 0))) then
             some (.Call2 t sop a b)
           else none
       | _, _ => none)
  | _ => none

/-! ## The rewrite rules of `FindIntrinsics::visit(const Call *)`
(FindIntrinsics.cpp:867-934, the rules not guarded by
`enable_synthesized_rules`), one definition per rule, in source order. -/

/-- `widen_right_add(widen_right_add(x, y), z) -> x + widening_add(y, z)`. -/
def callRule01 (t : HType) (m : Expr) : Option Expr :=
  match m with
  | .Call2 _ .widen_right_add (.Call2 _ .widen_right_add x y) z =>
      if isXSameIntUint t x then some (eadd x (widening_add y z)) else none
  | _ => none

/-- `widen_right_sub(widen_right_sub(x, y), z) -> x - widening_add(y, z)`. -/
def callRule02 (t : HType) (m : Expr) : Option Expr :=
  match m with
  | .Call2 _ .widen_right_sub (.Call2 _ .widen_right_sub x y) z =>
      if isXSameIntUint t x then some (esub x (widening_add y z)) else none
  | _ => none

/-- `widen_right_sub(widen_right_add(x, y), z) -> x + widening_sub(y, z)` (int). -/
def callRule03 (t : HType) (m : Expr) : Option Expr :=
  match m with
  | .Call2 _ .widen_right_sub (.Call2 _ .widen_right_add x y) z =>
      if isXSameInt t x then some (eadd x (widening_sub y z)) else none
  | _ => none

/-- As `callRule03` but for uint, with a reinterpreting cast. -/
def callRule04 (t : HType) (m : Expr) : Option Expr :=
  match m with
  | .Call2 _ .widen_right_sub (.Call2 _ .widen_right_add x y) z =>
      if isXSameUint t x then some (eadd x (hcast t (widening_sub y z))) else none
  | _ => none

/-- `widen_right_add(widen_right_sub(x, y), z) -> x + widening_sub(z, y)` (int). -/
def callRule05 (t : HType) (m : Expr) : Option Expr :=
  match m with
  | .Call2 _ .widen_right_add (.Call2 _ .widen_right_sub x y) z =>
      if isXSameInt t x then some (eadd x (widening_sub z y)) else none
  | _ => none

/-- As `callRule05` but for uint, with a reinterpreting cast. -/
def callRule06 (t : HType) (m : Expr) : Option Expr :=
  match m with
  | .Call2 _ .widen_right_add (.Call2 _ .widen_right_sub x y) z =>
      if isXSameUint t x then some (eadd x (hcast t (widening_sub z y))) else none
  | _ => none

/-- `saturating_cast(t, widening_add(x, y)) -> saturating_add(x, y)`. -/
def callRule07 (t : HType) (m : Expr) : Option Expr :=
  match m with
  | .Call1 _ .saturating_cast (.Call2 _ .widening_add x y) =>
      if isXSameIntUint t x then some (saturating_add x y) else none
  | _ => none

/-- `saturating_cast(t, widening_sub(x, y)) -> saturating_sub(x, y)`. -/
def callRule08 (t : HType) (m : Expr) : Option Expr :=
  match m with
  | .Call1 _ .saturating_cast (.Call2 _ .widening_sub x y) =>
      if isXSameIntUint t x then some (saturating_sub x y) else none
  | _ => none

/-- `saturating_cast(t, shift_right(widening_mul(x, y), z)) ->
mul_shift_right(x, y, cast(unsigned, z))`. -/
def callRule09 (t : HType) (m : Expr) : Option Expr :=
  match m with
  | .Call1 _ .saturating_cast (.Call2 _ .shift_right (.Call2 _ .widening_mul x y) z) =>
      if isXSameIntUint t x && callXYSameSign x y && z.etype.is_uint then
        some (mul_shift_right x y (hcast (t.with_code tuint) z))
      else none
  | _ => none

/-- The rounding variant of `callRule09`. -/
def callRule10 (t : HType) (m : Expr) : Option Expr :=
  match m with
  | .Call1 _ .saturating_cast (.Call2 _ .rounding_shift_right (.Call2 _ .widening_mul x y) z) =>
      if isXSameIntUint t x && callXYSameSign x y && z.etype.is_uint then
        some (rounding_mul_shift_right x y (hcast (t.with_code tuint) z))
      else none
  | _ => none

/-- `saturating_cast(t, cast(widen(t), x)) -> x` (bits up to 32). -/
def callRule11 (t : HType) (m : Expr) : Option Expr :=
  match m with
  | .Call1 _ .saturating_cast (.Cast wt x) =>
      if t.bits ≤ 32 && wt == t.widen && isXSameIntUint t x then some x else none
  | _ => none

/-- `saturating_cast(t, cast(widen(widen(t)), x)) -> saturating_cast(t, x)`
(bits up to 16). -/
def callRule12 (t : HType) (m : Expr) : Option Expr :=
  match m with
  | .Call1 _ .saturating_cast (.Cast wwt x) =>
      if t.bits ≤ 16 && wwt == (t.widen).widen && isXWiderIntUint t x then
        some (saturating_cast t x)
      else none
  | _ => none

/-- As `callRule12` with the doubly-widened opposite-signedness type. -/
def callRule13 (t : HType) (m : Expr) : Option Expr :=
  match m with
  | .Call1 _ .saturating_cast (.Cast wwt x) =>
      if t.bits ≤ 16 && wwt == ((oppositeType t).widen).widen && isXWiderOpposite t x then
        some (saturating_cast t x)
      else none
  | _ => none

/-- The main rewrite-rule list of `FindIntrinsics::visit(const Call *)`
(FindIntrinsics.cpp:867-934) in source order; `m` is the call with
already-mutated arguments and `t` its type. -/
def callRules (t : HType) (m : Expr) : Option Expr :=
  firstRule t m
    [callRule01, callRule02, callRule03, callRule04, callRule05, callRule06,
     callRule07, callRule08, callRule09, callRule10, callRule11, callRule12,
     callRule13]

/-! ## The `no_overflow` rules of `visit(const Call *)`
(FindIntrinsics.cpp:976-989), applicable only to types with undefined
overflow. -/

/-- `halving_add(x + y, 1) -> rounding_halving_add(x, y)`. -/
def noOvRule1 (_ : HType) (m : Expr) : Option Expr :=
  match m with
  | .Call2 _ .halving_add (.Add x y) one =>
      if isConstV one 1 then some (rounding_halving_add x y) else none
  | _ => none

/-- `halving_add(x, y + 1) -> rounding_halving_add(x, y)`. -/
def noOvRule2 (_ : HType) (m : Expr) : Option Expr :=
  match m with
  | .Call2 _ .halving_add x (.Add y one) =>
      if isConstV one 1 then some (rounding_halving_add x y) else none
  | _ => none

/-- `halving_add(x + 1, y) -> rounding_halving_add(x, y)`. -/
def noOvRule3 (_ : HType) (m : Expr) : Option Expr :=
  match m with
  | .Call2 _ .halving_add (.Add x one) y =>
      if isConstV one 1 then some (rounding_halving_add x y) else none
  | _ => none

/-- `halving_add(x, 1) -> rounding_shift_right(x, 1)`. -/
def noOvRule4 (_ : HType) (m : Expr) : Option Expr :=
  match m with
  | .Call2 _ .halving_add x one =>
      if isConstV one 1 then some (rounding_shift_right x (mkConst x.etype 1)) else none
  | _ => none

/-- `shift_right(x + y, 1) -> halving_add(x, y)`. -/
def noOvRule5 (_ : HType) (m : Expr) : Option Expr :=
  match m with
  | .Call2 _ .shift_right (.Add x y) one =>
      if isConstV one 1 then some (halving_add x y) else none
  | _ => none

/-- `shift_right(x - y, 1) -> halving_sub(x, y)`. -/
def noOvRule6 (_ : HType) (m : Expr) : Option Expr :=
  match m with
  | .Call2 _ .shift_right (.Sub x y) one =>
      if isConstV one 1 then some (halving_sub x y) else none
  | _ => none

/-- `rounding_shift_right(x + y, 1) -> rounding_halving_add(x, y)`. -/
def noOvRule7 (_ : HType) (m : Expr) : Option Expr :=
  match m with
  | .Call2 _ .rounding_shift_right (.Add x y) one =>
      if isConstV one 1 then some (rounding_halving_add x y) else none
  | _ => none

/-- The `no_overflow` rewrite-rule list (FindIntrinsics.cpp:976-989). -/
def noOverflowRules (m : Expr) : Option Expr :=
  firstRule m.etype m
    [noOvRule1, noOvRule2, noOvRule3, noOvRule4, noOvRule5, noOvRule6, noOvRule7]
/-! ## The mutator itself

Each visit method takes the recursive mutator as a function argument
(the role `this->mutate` plays in the class); `fiMutate` ties the knot
with explicit fuel, consuming one unit per visit, so any concrete run
below terminates with room to spare. -/

/-- `visit(const Add *)` (FindIntrinsics.cpp:215-350). -/
def fiVisitAdd (mutate : Expr → Expr) (t : HType) (a0 b0 : Expr) : Expr :=
  let a := mutate a0
  let b := mutate b0
  -- try widening both from the same signedness as the result, and from uint
  match firstNarrowPair t (addSubWideningCodes t) a b with
  | some (na, nb) =>
      let result := widening_add na nb
      let result := if result.etype != t then .Cast t result else result
      mutate result
  | none =>
      -- look for widen_right_add intrinsics
      if t.is_int_or_uint && t.bits > 8 then
        match firstWidenRightPick t (widenRightCodes t) a b with
        | some (true, na) =>
            -- narrow_a defined: build from (b, narrow_a); returned unmutated
            if b.etype.code != na.etype.code then
              hreinterpret t (widen_right_add (hreinterpret (b.etype.with_code na.etype.code) b) na)
            else widen_right_add b na
        | some (false, nb) =>
            let result :=
              if a.etype.code != nb.etype.code then
                hreinterpret t (widen_right_add (hreinterpret (a.etype.with_code nb.etype.code) a) nb)
              else widen_right_add a nb
            mutate result
        | none => .Add a b
      else .Add a b

/-- `visit(const Sub *)` (FindIntrinsics.cpp:352-433). -/
def fiVisitSub (mutate : Expr → Expr) (t : HType) (a0 b0 : Expr) : Expr :=
  let a := mutate a0
  let b := mutate b0
  match firstNarrowPair t (addSubWideningCodes t) a b with
  | some (na, nb) =>
      let result :=
        match lossless_negate nb with
        | some nnb => widening_add na nnb
        | none => widening_sub na nb
      let result := if result.etype != t then .Cast t result else result
      mutate result
  | none =>
      match lossless_negate b with
      | some nb => .Add a nb
      | none =>
          -- look for widen_right_sub intrinsics
          if t.is_int_or_uint && t.bits > 8 then
            match firstNarrowSingle t (widenRightCodes t) b with
            | some nb =>
                let result :=
                  if a.etype.code != nb.etype.code then
                    hreinterpret t (widen_right_sub (hreinterpret (a.etype.with_code nb.etype.code) a) nb)
                  else widen_right_sub a nb
                mutate result
            | none => .Sub a b
          else .Sub a b

/-- `visit(const Mul *)` (FindIntrinsics.cpp:435-552). -/
def fiVisitMul (mutate : Expr → Expr) (t : HType) (a0 b0 : Expr) : Expr :=
  -- distribute constants through add/sub before everything else
  let distributed : Option Expr :=
    if (asConst b0).isSome then
      match a0 with
      | .Add aa ab =>
          some (mutate (.Add (hsimplify (.Mul aa b0)) (hsimplify (.Mul ab b0))))
      | .Sub aa ab =>
          some (mutate (.Sub (hsimplify (.Mul aa b0)) (hsimplify (.Mul ab b0))))
      | _ => none
    else none
  match distributed with
  | some r => r
  | none =>
    let a := mutate a0
    let b := mutate b0
    -- rewrite multiplies to shifts if possible
    let pow2 : Option Expr :=
      if t.is_int || t.is_uint then
        match is_const_power_of_two_integer a with
        | some p => some (mutate (eshl b (mkConst (UIntT b.etype.bits 1) p)))
        | none =>
            match is_const_power_of_two_integer b with
            | some p => some (mutate (eshl a (mkConst (UIntT a.etype.bits 1) p)))
            | none => none
      else none
    match pow2 with
    | some r => r
    | none =>
      -- widening_mul via strip_widening_cast (signedness-insensitive)
      let widening : Option Expr :=
        match strip_widening_cast a, strip_widening_cast b with
        | some na, some nb =>
            if na.etype.is_int_or_uint == nb.etype.is_int_or_uint ||
               na.etype.is_float == nb.etype.is_float then
              -- normalize widening_mul(u8, i8)
              let result :=
                if na.etype.is_int && nb.etype.is_uint then widening_mul nb na
                else widening_mul na nb
              let result := if result.etype != t then .Cast t result else result
              some (mutate result)
            else none
        | _, _ => none
      match widening with
      | some r => r
      | none =>
        -- look for widen_right_mul intrinsics
        if t.is_int_or_uint && t.bits > 8 then
          match firstWidenRightPick t (widenRightCodes t) a b with
          | some (true, na) =>
              -- narrow_a defined: build from (b, narrow_a); returned unmutated
              if b.etype.code != na.etype.code then
                hreinterpret t (widen_right_mul (hreinterpret (b.etype.with_code na.etype.code) b) na)
              else widen_right_mul b na
          | some (false, nb) =>
              let result :=
                if a.etype.code != nb.etype.code then
                  hreinterpret t (widen_right_mul (hreinterpret (a.etype.with_code nb.etype.code) a) nb)
                else widen_right_mul a nb
              mutate result
          | none => .Mul a b
        else .Mul a b

/-- `visit(const Div *)` (FindIntrinsics.cpp:554-572). -/
def fiVisitDiv (mutate : Expr → Expr) (t : HType) (a0 b0 : Expr) : Expr :=
  let a := mutate a0
  let b := mutate b0
  match is_const_power_of_two_integer b with
  | some k =>
      if t.is_int_or_uint then mutate (eshr a (mkConst (UIntT a.etype.bits 1) k))
      else .Div a b
  | none => .Div a b

/-- `visit_min_or_max` (FindIntrinsics.cpp:577-598). -/
def fiVisitMinMax (mutate : Expr → Expr) (isMin : Bool) (a0 b0 : Expr) : Expr :=
  let a := mutate a0
  let b := mutate b0
  let rebuilt := if isMin then .Min a b else .Max a b
  match a with
  | .Cast ct cv =>
      (match lossless_cast cv.etype b with
       | some cb =>
           if canRepresent ct cv.etype then
             -- a widening cast that can be moved outside the min/max
             mutate (.Cast ct (if isMin then .Min cv cb else .Max cv cb))
           else rebuilt
       | none => rebuilt)
  | _ => rebuilt

/-- `visit(const Cast *)` (FindIntrinsics.cpp:608-824). -/
def fiVisitCast (mutate : Expr → Expr) (t : HType) (v0 : Expr) : Expr :=
  let value := mutate v0
  -- normalize same-width int casts to reinterpret
  if t.is_int_or_uint && t.bits == value.etype.bits then
    mutate (.Reinterpret t value)
  else
    -- collapse a redundant intermediate cast
    let value :=
      match value with
      | .Cast ct cv =>
          if canRepresent ct cv.etype || canRepresent ct t then cv else .Cast ct cv
      | _ => value
    if t.is_int || t.is_uint then
      match castRules t value with
      | some r => mutate r
      | none =>
          match castWideCleanup t v0 value with
          | some r => mutate r
          | none =>
              if value == v0 then .Cast t v0
              else if t != value.etype then .Cast t value
              else value
    else
      if value == v0 then .Cast t v0
      else if t != value.etype then .Cast t value
      else value

/-- `visit(const Reinterpret *)` (FindIntrinsics.cpp:1082-1107). -/
def fiVisitReinterpret (mutate : Expr → Expr) (t : HType) (v0 : Expr) : Expr :=
  let a := mutate v0
  if t == a.etype then a
  else
    match a with
    | .Reinterpret _ inner => mutate (.Reinterpret t inner)
    | _ => .Reinterpret t a

/-- `to_rounding_shift(c)` (FindIntrinsics.cpp:116-198): turn a shift
whose argument carries an explicit round-constant addition into the
rounding shift intrinsic.  `mutate` is the recursive recognizer (the free
function `find_intrinsics` invoked on the round amount) and `lowerI` the
`lower_intrinsics` mutator. -/
def to_rounding_shift (mutate : Expr → Expr) (lowerI : Expr → Expr) (c : Expr) : Option Expr :=
  match c with
  | .Call2 _ cop a b =>
      if cop == IOp.shift_left || cop == IOp.shift_right then
        let rshift : Expr → Expr → Expr := fun x y =>
          if cop == IOp.shift_right then rounding_shift_right x y else rounding_shift_left x y
        -- the rounding offset for the shift we have
        let round_type0 := a.etype.with_lanes 1
        let round_type :=
          match a with
          | .Call2 _ .widening_add _ _ => round_type0.narrow
          | _ => round_type0
        let round :=
          if cop == IOp.shift_right then
            let s := eshl (make_one round_type) (emaxC (hcast (b.etype.with_bits round_type.bits) b) 0)
            ediv s (mkConst s.etype 2)
          else
            let s := eshr (make_one round_type) (eminC (hcast (b.etype.with_bits round_type.bits) b) 0)
            ediv s (mkConst s.etype 2)
        let round := lowerI round
        let round := hsimplify round
        let round := mutate round
        -- we can always handle widening adds
        (match a with
         | .Call2 at' .widening_add x y =>
             if can_prove (lowerI (eeq x round)) then
               some (rshift (hcast at' y) b)
             else if can_prove (lowerI (eeq y round)) then
               some (rshift (hcast at' x) b)
             else none
         | _ => none) <|>
        (match a with
         | .Call2 at' .widen_right_add x y =>
             if can_prove (lowerI (eeq y round)) then
               some (rshift (hcast at' x) b)
             else none
         | _ => none) <|>
        -- a reinterpret wrapping a widen_right_add
        (match a with
         | .Reinterpret rt (.Call2 vt .widen_right_add x y) =>
             if rt.bits == vt.bits then
               if can_prove (lowerI (eeq y round)) then
                 match x with
                 | .Reinterpret _ xv => some (rshift xv b)
                 | _ => none  -- the source asserts the operand is a reinterpret
               else none
             else none
         | _ => none) <|>
        -- otherwise, find and remove the round constant explicitly
        (match find_and_subtract a round with
         | some alr =>
             if no_overflow a.etype || is_safe_for_add alr then
               some (rshift (hsimplify alr) b)
             else none
         | none => none)
      else none
  | _ => none

/-- The tail of `visit(const Call *)` (FindIntrinsics.cpp:991-1079):
moving widening casts out of widening arithmetic, turning shifts into
widening or rounding shifts, and narrowing wide rounding shifts.  `trs`
is `to_rounding_shift` with its recursive pieces already bound. -/
def fiVisitCallTail (mutate : Expr → Expr) (trs : Expr → Option Expr) (m : Expr) : Expr :=
  match m with
  | .Call2 t .widening_mul a b =>
      (match strip_widening_cast a, strip_widening_cast b with
       | some na, some nb => mutate (.Cast t (widening_mul na nb))
       | _, _ => m)
  | .Call2 t .widening_add a b =>
      if t.bits ≥ 16 then
        match firstDoubleNarrowPair t (addSubWideningCodes t) a b with
        | some (na, nb) => mutate (.Cast t (widening_add na nb))
        | none => m
      else m
  | .Call2 t .widening_sub a b =>
      if t.bits ≥ 16 then
        match firstDoubleNarrowPair t (addSubWideningCodes t) a b with
        | some (na, nb) => mutate (.Cast t (widening_sub na nb))
        | none => m
      else m
  | .Call2 t op a b =>
      if op == IOp.shift_right || op == IOp.shift_left then
        -- try to turn this into a widening shift
        match lossless_narrow a, lossless_narrow b with
        | some na, some nb =>
            let result :=
              if op == IOp.shift_left then widening_shift_left na nb
              else widening_shift_right na nb
            let result := if result.etype != t then .Cast t result else result
            mutate result
        | _, _ =>
            -- try to turn this into a rounding shift
            match trs m with
            | some rs => mutate rs
            | none => m
      else if op == IOp.rounding_shift_left || op == IOp.rounding_shift_right then
        -- try to turn this into a narrower rounding shift
        match lossless_narrow a, lossless_narrow b with
        | some na, some nb =>
            if op == IOp.rounding_shift_right && can_prove (egt nb (mkConst nb.etype 0)) then
              let r := rounding_shift_right na nb
              mutate (if r.etype != t then .Cast t r else r)
            else if op == IOp.rounding_shift_left && can_prove (elt nb (mkConst nb.etype 0)) then
              let r := rounding_shift_left na nb
              mutate (if r.etype != t then .Cast t r else r)
            else m
        | _, _ => m
      else m
  | _ => m

/-- `visit(const Call *)` (FindIntrinsics.cpp:826-1080), with the
synthesized-rule banks disabled. -/
def fiVisitCall (mutate : Expr → Expr) (trs : Expr → Option Expr) (e : Expr) : Expr :=
  -- IRMutator::visit first: mutate the arguments
  let m := mapChildren mutate e
  match m with
  | .Call1 t .abs (.Call2 _ .widening_sub x y) =>
      -- abs of widening_sub becomes a cast of absd (returned unmutated)
      hcast t (absd x y)
  | _ =>
      match callRules m.etype m with
      | some r => mutate r
      | none =>
          match (if no_overflow m.etype then noOverflowRules m else none) with
          | some r => mutate r
          | none => fiVisitCallTail mutate trs m

/-- `FindIntrinsics`' `mutate` dispatch: visit methods exist for `Add`,
`Sub`, `Mul`, `Div`, `Min`, `Max`, `Cast`, `Reinterpret`, `Call` and
`Let`; everything else takes the default mutator path, as does any node
of a type for which `find_intrinsics_for_type` is false. -/
def fiMutate : Nat → Expr → Expr
  | 0, e => e
  | fuel + 1, e =>
      let mutate := fiMutate fuel
      let trs := to_rounding_shift mutate (lowerIntrinsicsE fuel)
      match e with
      | .Add a b =>
          if find_intrinsics_for_type e.etype then fiVisitAdd mutate e.etype a b
          else mapChildren mutate e
      | .Sub a b =>
          if find_intrinsics_for_type e.etype then fiVisitSub mutate e.etype a b
          else mapChildren mutate e
      | .Mul a b =>
          if find_intrinsics_for_type e.etype then fiVisitMul mutate e.etype a b
          else mapChildren mutate e
      | .Div a b =>
          if find_intrinsics_for_type e.etype then fiVisitDiv mutate e.etype a b
          else mapChildren mutate e
      | .Min a b =>
          if find_intrinsics_for_type e.etype then fiVisitMinMax mutate true a b
          else mapChildren mutate e
      | .Max a b =>
          if find_intrinsics_for_type e.etype then fiVisitMinMax mutate false a b
          else mapChildren mutate e
      | .Cast t v =>
          if find_intrinsics_for_type t then fiVisitCast mutate t v
          else mapChildren mutate e
      | .Reinterpret t v => fiVisitReinterpret mutate t v
      | .Call1 _ _ _ =>
          if find_intrinsics_for_type e.etype then fiVisitCall mutate trs e
          else mapChildren mutate e
      | .Call2 _ _ _ _ =>
          if find_intrinsics_for_type e.etype then fiVisitCall mutate trs e
          else mapChildren mutate e
      | .Call3 _ _ _ _ _ =>
          if find_intrinsics_for_type e.etype then fiVisitCall mutate trs e
          else mapChildren mutate e
      | _ => mapChildren mutate e

/-! ## The SPIR-V builder (`src/SpirvIR.cpp`)

Only the state the checked properties touch is modelled: the id
allocator with its kind map, the type and pointer-type interning caches,
and block/function assembly.  Instruction emission into the module's
sections, capabilities and debug information are not needed by any
claim and are left out. -/

/-- The SPIR-V op codes that appear in the embedded builder/emitter
code.  `SpvBlock::is_terminated` (SpirvIR.cpp:228-242) recognises the
first seven as terminators. -/
inductive SpvOp
  | OpBranch
  | OpBranchConditional
  | OpSwitch
  | OpKill
  | OpReturn
  | OpReturnValue
  | OpUnreachable
  | OpLabel
  | OpLoopMerge
  | OpLoad
  | OpStore
  | OpIAdd
  | OpSLessThanEqual
  | OpULessThanEqual
  | OpCompositeExtract
  | OpBitcast
  | OpNop
  deriving DecidableEq, Repr

/-- An instruction: op code plus its operand/immediate words in order
(type id and result id, when present, lead the list, as
`SpvInstruction::encode` emits them). -/
structure SpvInstructionM where
  op : SpvOp
  operands : List Nat
  deriving DecidableEq, Repr

/-- `SpvFactory::branch(target)` (SpirvIR.cpp:2199-2203). -/
def spvBranch (target_label_id : Nat) : SpvInstructionM :=
  { op := .OpBranch, operands := [target_label_id] }

/-- `SpvFactory::conditional_branch` (SpirvIR.cpp:2205-2214), without
branch weights. -/
def spvConditionalBranch (condition_id true_label_id false_label_id : Nat) : SpvInstructionM :=
  { op := .OpBranchConditional, operands := [condition_id, true_label_id, false_label_id] }

/-- `SpvFactory::loop_merge` (SpirvIR.cpp:2270-2276). -/
def spvLoopMerge (merge_label_id continue_label_id loop_control_mask : Nat) : SpvInstructionM :=
  { op := .OpLoopMerge, operands := [merge_label_id, continue_label_id, loop_control_mask] }

/-- `SpvFactory::load` (SpirvIR.cpp:2107-2114), access mask 0. -/
def spvLoad (type_id result_id ptr_id : Nat) : SpvInstructionM :=
  { op := .OpLoad, operands := [type_id, result_id, ptr_id, 0] }

/-- `SpvFactory::store` (SpirvIR.cpp:2116-2122), access mask 0. -/
def spvStore (ptr_id obj_id : Nat) : SpvInstructionM :=
  { op := .OpStore, operands := [ptr_id, obj_id, 0] }

/-- `SpvFactory::integer_add` (SpirvIR.cpp:2191-2193). -/
def spvIntegerAdd (type_id result_id a b : Nat) : SpvInstructionM :=
  { op := .OpIAdd, operands := [type_id, result_id, a, b] }

/-- `SpvFactory::less_than_equal` (SpirvIR.cpp:2243-2250): signed picks
`OpSLessThanEqual`, unsigned `OpULessThanEqual`. -/
def spvLessThanEqual (type_id result_id a b : Nat) (is_signed : Bool) : SpvInstructionM :=
  { op := if is_signed then .OpSLessThanEqual else .OpULessThanEqual,
    operands := [type_id, result_id, a, b] }

/-- A basic block: its label id and its instructions (the separate
variable-declaration list of `SpvBlock` plays no role in the claims). -/
structure SpvBlockM where
  block_id : Nat
  instructions : List SpvInstructionM
  deriving DecidableEq, Repr

/-- `SpvBlock::is_terminated` (SpirvIR.cpp:228-242): looks at the last
instruction (`instructions.back()`; an empty block is undefined
behaviour in the source and mapped to `false` here — the theorems below
assume a nonempty block). -/
def SpvBlockM.is_terminated (b : SpvBlockM) : Bool :=
  match b.instructions.getLast? with
  | some i =>
      i.op == SpvOp.OpBranch || i.op == SpvOp.OpBranchConditional ||
      i.op == SpvOp.OpSwitch || i.op == SpvOp.OpKill ||
      i.op == SpvOp.OpReturn || i.op == SpvOp.OpReturnValue ||
      i.op == SpvOp.OpUnreachable
  | none => false

/-- A function: its ordered blocks (declaration ids omitted). -/
structure SpvFunctionM where
  blocks : List SpvBlockM
  deriving DecidableEq, Repr

/-- `SpvFunction::add_block` (SpirvIR.cpp:300-309): when the function is
non-empty and its tail block is not terminated, an unconditional branch
to the new block's label is appended to the old tail before the new
block is attached (`create_block`, lines 287-298, has the same
behaviour). -/
def SpvFunctionM.add_block (f : SpvFunctionM) (block : SpvBlockM) : SpvFunctionM :=
  match f.blocks.getLast? with
  | none => { blocks := f.blocks ++ [block] }
  | some tail =>
      if tail.is_terminated then { blocks := f.blocks ++ [block] }
      else
        { blocks := f.blocks.dropLast ++
            [{ tail with instructions := tail.instructions ++ [spvBranch block.block_id] }, block] }

/-- The id kinds of `SpvBuilder` (`SpirvIR.h`, as enumerated by
`kind_name`, SpirvIR.cpp:746-840). -/
inductive SpvKind
  | InvalidItem
  | TypeId
  | VoidTypeId
  | BoolTypeId
  | IntTypeId
  | FloatTypeId
  | VectorTypeId
  | ArrayTypeId
  | RuntimeArrayTypeId
  | StringTypeId
  | PointerTypeId
  | StructTypeId
  | FunctionTypeId
  | AccessChainId
  | ConstantId
  | BoolConstantId
  | IntConstantId
  | FloatConstantId
  | StringConstantId
  | CompositeConstantId
  | ResultId
  | VariableId
  | InstructionId
  | FunctionId
  | BlockId
  | LabelId
  | ParameterId
  | ModuleId
  | UnknownItem
  deriving DecidableEq, Repr

/-- `SpvInvalidId`. -/
def SpvInvalidId : Nat := 0

/-- The builder state the claims touch: the id/kind map (stored in
insertion order; its keys are proven below to be exactly `1..n`, so its
length models the `std::map`'s size), the type cache keyed by the type
(the source keys by a hash of `(code, bits, lanes, bytes, array_size)`;
`array_size` is 1 throughout and `bytes` is derived), the pointer-type
cache keyed by `(base_type_id, storage_class)`, and the reverse maps
`base_type_map` / `storage_class_map`.  The module's `binding_count` is
carried directly. -/
structure SpvBuilderState where
  kind_map : List (Nat × SpvKind)
  type_map : List (HType × Nat)
  pointer_type_map : List ((Nat × Nat) × Nat)
  base_type_map : List (Nat × Nat)
  storage_class_map : List (Nat × Nat)
  binding_count : Nat
  deriving DecidableEq, Repr

/-- `SpvBuilder::make_id` (SpirvIR.cpp:738-744): type-agnostic
non-overlapping increasing ids; the new id is `kind_map.size() + 1` and
is recorded with its kind. -/
def make_id (st : SpvBuilderState) (kind : SpvKind) : Nat × SpvBuilderState :=
  let item_id := st.kind_map.length + 1
  (item_id, { st with kind_map := st.kind_map ++ [(item_id, kind)] })

/-- `SpvBuilder::reset` (SpirvIR.cpp:709-732): clear all maps, then
allocate the module id (the first `make_id`, which yields id 1). -/
def resetState : SpvBuilderState :=
  let st0 : SpvBuilderState :=
    { kind_map := [], type_map := [], pointer_type_map := [],
      base_type_map := [], storage_class_map := [], binding_count := 0 }
  (make_id st0 SpvKind.ModuleId).2

/-- `SpvBuilder::finalize` (SpirvIR.cpp:858-869): sets the module's
binding count to `kind_map.size() + 1` (the next free id).  The
capability-driven extension requirements it also adds touch no state a
claim is about. -/
def finalizeBuilder (st : SpvBuilderState) : SpvBuilderState :=
  { st with binding_count := st.kind_map.length + 1 }

/-- A sequence of `make_id` calls after `reset`. -/
def applyAllocs (st : SpvBuilderState) (ks : List SpvKind) : SpvBuilderState :=
  ks.foldl (fun s k => (make_id s k).2) st

/-- `SpvBuilder::lookup_type` (SpirvIR.cpp:1220-1227): `SpvInvalidId`
when the type was never declared. -/
def lookup_type (st : SpvBuilderState) (t : HType) : Nat :=
  match st.type_map.find? (fun p => p.1 == t) with
  | some p => p.2
  | none => SpvInvalidId

/-- The scalar branch of `SpvBuilder::add_type` (SpirvIR.cpp:1257-1309):
allocate an id of the kind the type selects (handle is void, bool before
int since Halide booleans are `UInt(1)`), then intern it.  The vector
branch additionally declares the element type after allocating the
vector's id (line 1260); array types do not occur in the claims. -/
def add_type (st : SpvBuilderState) (t : HType) : Nat × SpvBuilderState :=
  match st.type_map.find? (fun p => p.1 == t) with
  | some p => (p.2, st)
  | none =>
      if t.is_vector then
        let (type_id, st) := make_id st SpvKind.VectorTypeId
        let elem := t.with_lanes 1
        let st :=
          match st.type_map.find? (fun p => p.1 == elem) with
          | some _ => st
          | none =>
              let (eid, st) := make_id st
                (if elem.is_handle then SpvKind.VoidTypeId
                 else if elem.is_bool then SpvKind.BoolTypeId
                 else if elem.is_float then SpvKind.FloatTypeId
                 else SpvKind.IntTypeId)
              { st with type_map := st.type_map ++ [(elem, eid)] }
        (type_id, { st with type_map := st.type_map ++ [(t, type_id)] })
      else
        let kind :=
          if t.is_handle then SpvKind.VoidTypeId
          else if t.is_bool then SpvKind.BoolTypeId
          else if t.is_float then SpvKind.FloatTypeId
          else SpvKind.IntTypeId
        let (type_id, st) := make_id st kind
        (type_id, { st with type_map := st.type_map ++ [(t, type_id)] })

/-- `SpvBuilder::declare_type` (SpirvIR.cpp:876-882). -/
def declare_type (st : SpvBuilderState) (t : HType) : Nat × SpvBuilderState :=
  let tid := lookup_type st t
  if tid == SpvInvalidId then add_type st t else (tid, st)

/-- `SpvBuilder::lookup_pointer_type(SpvId, storage_class)`
(SpirvIR.cpp:1385-1392). -/
def lookup_pointer_type_id (st : SpvBuilderState) (base_type_id storage_class : Nat) : Nat :=
  match st.pointer_type_map.find? (fun p => p.1 == (base_type_id, storage_class)) with
  | some p => p.2
  | none => SpvInvalidId

/-- `SpvBuilder::lookup_pointer_type(Type, storage_class)`
(SpirvIR.cpp:1377-1383): `internal_error` (an abort, modelled as `none`)
when the base type was never declared. -/
def lookup_pointer_type_t (st : SpvBuilderState) (t : HType) (storage_class : Nat) : Option Nat :=
  let base_type_id := lookup_type st t
  if base_type_id == SpvInvalidId then none
  else some (lookup_pointer_type_id st base_type_id storage_class)

/-- `SpvBuilder::add_pointer_type(SpvId, storage_class)`
(SpirvIR.cpp:1400-1415): intern under the key
`(base_type_id, storage_class)` and record the base type and storage
class of the new pointer id. -/
def add_pointer_type_id (st : SpvBuilderState) (base_type_id storage_class : Nat) :
    Nat × SpvBuilderState :=
  match st.pointer_type_map.find? (fun p => p.1 == (base_type_id, storage_class)) with
  | some p => (p.2, st)
  | none =>
      let (pointer_type_id, st) := make_id st SpvKind.PointerTypeId
      (pointer_type_id,
       { st with
         pointer_type_map := st.pointer_type_map ++ [((base_type_id, storage_class), pointer_type_id)],
         storage_class_map := st.storage_class_map ++ [(pointer_type_id, storage_class)],
         base_type_map := st.base_type_map ++ [(pointer_type_id, base_type_id)] })

/-- `SpvBuilder::add_pointer_type(Type, storage_class)`
(SpirvIR.cpp:1394-1398): declare the base type first, then add the
pointer type over its id. -/
def add_pointer_type_t (st : SpvBuilderState) (t : HType) (storage_class : Nat) :
    Nat × SpvBuilderState :=
  let (base_type_id, st) := declare_type st t
  add_pointer_type_id st base_type_id storage_class

/-- `SpvBuilder::declare_pointer_type(Type, storage_class)`
(SpirvIR.cpp:884-890), verbatim: on a cache miss the source passes
`ptr_type_id` — the local variable that was just tested to be
`SpvInvalidId`, i.e. the constant 0 — to the `SpvId` overload of
`add_pointer_type`, not the type (`add_pointer_type(ptr_type_id,
storage_class)` at line 887).  `none` is the `internal_error` abort
raised inside `lookup_pointer_type` for an undeclared base type. -/
def declare_pointer_type_t (st : SpvBuilderState) (t : HType) (storage_class : Nat) :
    Option (Nat × SpvBuilderState) :=
  match lookup_pointer_type_t st t storage_class with
  | none => none
  | some ptr_type_id =>
      if ptr_type_id == SpvInvalidId then
        some (add_pointer_type_id st ptr_type_id storage_class)
      else
        some (ptr_type_id, st)

/-- `SpvBuilder::declare_pointer_type(SpvId, storage_class)`
(SpirvIR.cpp:892-898). -/
def declare_pointer_type_id (st : SpvBuilderState) (type_id storage_class : Nat) :
    Nat × SpvBuilderState :=
  let ptr_type_id := lookup_pointer_type_id st type_id storage_class
  if ptr_type_id == SpvInvalidId then add_pointer_type_id st type_id storage_class
  else (ptr_type_id, st)

/-- The recorded base type of a pointer id (`base_type_map`). -/
def lookupBase (st : SpvBuilderState) (pointer_type_id : Nat) : Option Nat :=
  (st.base_type_map.find? (fun p => p.1 == pointer_type_id)).map Prod.snd

/-! ## The Vulkan shader emitter (`src/CodeGen_Vulkan_Dev.cpp`) -/

/-- `ends_with(str, suffix)` on the character lists of the names. -/
def ends_with (str suffix : String) : Bool :=
  suffix.data.isSuffixOf str.data

/-- `thread_loop_workgroup_index(name)`
(CodeGen_Vulkan_Dev.cpp:1074-1084): the workgroup dimension a GPU-thread
loop name selects, `-1` for a loop that is not a thread dimension. -/
def thread_loop_workgroup_index (name : String) : Int :=
  if ends_with name ".__thread_id_x" then 0
  else if ends_with name ".__thread_id_y" then 1
  else if ends_with name ".__thread_id_z" then 2
  else -1

/-- The workgroup-size triplet, initialised to zeros when a kernel
starts. -/
structure WorkgroupSize where
  x : Nat
  y : Nat
  z : Nat
  deriving DecidableEq, Repr

def WorkgroupSize.get (w : WorkgroupSize) : Nat → Nat
  | 0 => w.x
  | 1 => w.y
  | _ => w.z

def WorkgroupSize.set (w : WorkgroupSize) : Nat → Nat → WorkgroupSize
  | 0, v => { w with x := v }
  | 1, v => { w with y := v }
  | _, v => { w with z := v }

/-- The `uint32_t` truncation applied to the extent's `int64` value
(`uint32_t new_wsize = wsize->value`, CodeGen_Vulkan_Dev.cpp:1103). -/
def u32ofInt (v : Int) : Nat := (v % 4294967296).toNat

/-- The workgroup-size bookkeeping of the GPU branch of
`SPIRV_Emitter::visit(const For *)` (CodeGen_Vulkan_Dev.cpp:1098-1108):
when the loop name maps to a thread dimension, the extent must be an
integer literal (`user_assert(wsize != nullptr)`), and must agree with
any previously recorded nonzero extent for that dimension
(`user_assert(workgroup_size[idx] == 0 || workgroup_size[idx] ==
new_wsize)`); the extent is then recorded.  `user_assert` failures are
compilation errors, modelled as `Except.error`. -/
def visit_gpu_thread_for (wg : WorkgroupSize) (name : String) (extent : Expr) :
    Except String WorkgroupSize :=
  let idx := thread_loop_workgroup_index name
  if idx ≥ 0 then
    match extent with
    | .IntImm _ v =>
        let new_wsize := u32ofInt v
        if wg.get idx.toNat == 0 || wg.get idx.toNat == new_wsize then
          Except.ok (wg.set idx.toNat new_wsize)
        else
          Except.error "Vulkan requires all kernels have the same workgroup size"
    | _ => Except.error "Vulkan requires statically-known workgroup size"
  else Except.ok wg

/-! ### The serial `For` loop (CodeGen_Vulkan_Dev.cpp:1129-1199)

The emitter lowers a serial loop over `[min, min + extent)` to a
five-block structured loop.  The blocks below are the instruction
skeleton it emits, with the ids it reserves passed in; the loop variable
is initialised with `min_id` (`declare_variable(..., min_id)`, line
1147) and the bound is `OpIAdd(min, extent)` (line 1144). -/

/-- The ids the serial-loop emission uses, in the roles the source
names. -/
structure SerialForIds where
  index_type_id : Nat
  min_id : Nat
  extent_id : Nat
  max_id : Nat
  loop_var_id : Nat
  header_block_id : Nat
  top_block_id : Nat
  body_block_id : Nat
  continue_block_id : Nat
  merge_block_id : Nat
  current_index_id : Nat
  loop_test_type_id : Nat
  loop_test_id : Nat
  next_index_id : Nat
  constant_one_id : Nat
  deriving Repr

/-- The header block (lines 1155-1161): `OpLoopMerge(merge, continue)`
then an unconditional branch to the top block. -/
def serialForHeaderBlock (ids : SerialForIds) : SpvBlockM :=
  { block_id := ids.header_block_id,
    instructions :=
      [spvLoopMerge ids.merge_block_id ids.continue_block_id 0,
       spvBranch ids.top_block_id] }

/-- The top block (lines 1163-1173): load the loop variable, test it
against the bound with a signed less-than-or-equal
(`less_than_equal(..., current_index, max, true)`, line 1170), and
branch into the body while the test holds, to the merge block
otherwise. -/
def serialForTopBlock (ids : SerialForIds) : SpvBlockM :=
  { block_id := ids.top_block_id,
    instructions :=
      [spvLoad ids.index_type_id ids.current_index_id ids.loop_var_id,
       spvLessThanEqual ids.loop_test_type_id ids.loop_test_id
         ids.current_index_id ids.max_id true,
       spvConditionalBranch ids.loop_test_id ids.body_block_id ids.merge_block_id] }

/-- The continue block (lines 1184-1195): add one to the loop index,
store it back, and branch to the header. -/
def serialForContinueBlock (ids : SerialForIds) : SpvBlockM :=
  { block_id := ids.continue_block_id,
    instructions :=
      [spvIntegerAdd ids.index_type_id ids.next_index_id
         ids.current_index_id ids.constant_one_id,
       spvStore ids.loop_var_id ids.next_index_id,
       spvBranch ids.header_block_id] }

/-- The semantics of the emitted loop: starting from the loop variable's
initial value `min` (line 1147), one header-top-body-continue cycle per
iteration, entering the body while `index <= min + extent` (the
`OpSLessThanEqual` against the `OpIAdd(min, extent)` bound) and
incrementing by the constant one in the continue block.  Returns the
number of body-block executions after the merge block is reached. -/
def runSerialLoop (m n : Int) (i : Int) (c : Nat) : Nat :=
  if i ≤ m + n then runSerialLoop m n (i + 1) (c + 1) else c
  termination_by (m + n + 1 - i).toNat
  decreasing_by omega

/-- The body-execution count of the emitted serial loop for minimum `m`
and extent `n`. -/
def serialLoopBodyCount (m n : Int) : Nat := runSerialLoop m n m 0

/-! ## The Vulkan emitter's intrinsic dispatch
(CodeGen_Vulkan_Dev.cpp:713-734) -/

/-- The higher-order intrinsics the Vulkan emitter's `visit(const Call *)`
intercepts, in the order of the `||` chain at
CodeGen_Vulkan_Dev.cpp:713-731 (`saturating_cast` is repeated in the
source condition). -/
def vulkanLoweredIntrinsics : List IOp :=
  [IOp.widen_right_add, IOp.widen_right_mul, IOp.widen_right_sub,
   IOp.widening_add, IOp.widening_mul, IOp.widening_sub,
   IOp.widening_shift_left, IOp.widening_shift_right,
   IOp.rounding_shift_left, IOp.rounding_shift_right,
   IOp.saturating_cast, IOp.saturating_add, IOp.saturating_sub,
   IOp.saturating_cast,
   IOp.halving_add, IOp.halving_sub, IOp.rounding_halving_add,
   IOp.mul_shift_right, IOp.rounding_mul_shift_right]

/-- The op-code of an intrinsic call node. -/
def callOp : Expr → Option IOp
  | .Call1 _ op _ => some op
  | .Call2 _ op _ _ => some op
  | .Call3 _ op _ _ _ => some op
  | _ => none

/-- The expression the Vulkan emitter recursively emits code for when it
meets one of the listed higher-order intrinsic calls:
`Expr e = lower_intrinsic(op); e.accept(this);`
(CodeGen_Vulkan_Dev.cpp:732-733). -/
def spirvEmitterLoweredExpr (e : Expr) : Option Expr :=
  match callOp e with
  | some op => if vulkanLoweredIntrinsics.contains op then lower_intrinsic e else none
  | none => none

/-! ## Supporting lemmas -/

theorem hcast_etype (t : HType) (e : Expr) : (hcast t e).etype = t := by
  unfold hcast
  split
  · next h => exact eq_of_beq h
  · split
    · split
      · rfl
      · rfl
    · rfl

theorem mkConst_etype (t : HType) (v : Int) : (mkConst t v).etype = t := rfl

/-- A successful `lossless_cast` returns an expression of the requested
type. -/
theorem lossless_cast_etype (t : HType) (e n : Expr)
    (h : lossless_cast t e = some n) : n.etype = t := by
  induction e generalizing t n with
  | Cast ct inner ih =>
      rw [lossless_cast] at h
      split at h
      · next heq => cases h; exact eq_of_beq heq
      · split at h
        · cases h; exact hcast_etype t _
        · split at h
          · exact ih t n h
          · cases h
  | IntImm it v =>
      rw [lossless_cast] at h
      split at h
      · next heq => cases h; exact eq_of_beq heq
      · split at h
        · cases h; exact hcast_etype t _
        · split at h
          · cases h; rfl
          · cases h
  | _ =>
      rw [lossless_cast] at h
      · split at h
        · next heq => cases h; exact eq_of_beq heq
        · split at h
          · cases h; exact hcast_etype t _
          · exact Option.noConfusion h
      all_goals intro _ _ hx; exact Expr.noConfusion hx

/-- Whether both operands losslessly narrow to the half-width type with
sign code `c`. -/
def narrowsBothAt (t : HType) (c : TypeCode) (a b : Expr) : Bool :=
  (lossless_cast ((t.narrow).with_code c) a).isSome &&
  (lossless_cast ((t.narrow).with_code c) b).isSome

/-- Whether at least one operand losslessly narrows with sign code `c`. -/
def narrowsEitherAt (t : HType) (c : TypeCode) (a b : Expr) : Bool :=
  (lossless_cast ((t.narrow).with_code c) a).isSome ||
  (lossless_cast ((t.narrow).with_code c) b).isSome

/-- The widening search returns the narrowings under the first sign code
in the candidate list for which both operands narrow losslessly; all
earlier codes fail. -/
theorem firstNarrowPair_spec (t : HType) :
    ∀ (codes : List TypeCode) (a b na nb : Expr),
      firstNarrowPair t codes a b = some (na, nb) →
      ∃ pre c post, codes = pre ++ c :: post ∧
        (∀ c2 ∈ pre, narrowsBothAt t c2 a b = false) ∧
        lossless_cast ((t.narrow).with_code c) a = some na ∧
        lossless_cast ((t.narrow).with_code c) b = some nb := by
  intro codes
  induction codes with
  | nil => intro a b na nb h; simp [firstNarrowPair] at h
  | cons c rest ih =>
      intro a b na nb h
      rw [firstNarrowPair] at h
      cases ha : lossless_cast ((t.narrow).with_code c) a with
      | some na2 =>
          cases hb : lossless_cast ((t.narrow).with_code c) b with
          | some nb2 =>
              rw [ha, hb] at h
              cases h
              exact ⟨[], c, rest, rfl, (by intro c2 hc2; cases hc2), ha, hb⟩
          | none =>
              rw [ha, hb] at h
              obtain ⟨pre, c3, post, hcodes, hpre, hna, hnb⟩ := ih a b na nb h
              refine ⟨c :: pre, c3, post, by simp [hcodes], ?_, hna, hnb⟩
              intro c2 hc2
              rcases List.mem_cons.mp hc2 with hc2 | hc2
              · subst hc2; simp [narrowsBothAt, ha, hb]
              · exact hpre c2 hc2
      | none =>
          rw [ha] at h
          have h2 : firstNarrowPair t rest a b = some (na, nb) := by
            cases hb : lossless_cast ((t.narrow).with_code c) b with
            | some nb2 => rw [hb] at h; exact h
            | none => rw [hb] at h; exact h
          obtain ⟨pre, c3, post, hcodes, hpre, hna, hnb⟩ := ih a b na nb h2
          refine ⟨c :: pre, c3, post, by simp [hcodes], ?_, hna, hnb⟩
          intro c2 hc2
          rcases List.mem_cons.mp hc2 with hc2 | hc2
          · subst hc2; simp [narrowsBothAt, ha]
          · exact hpre c2 hc2

/-- The widen-right search returns a narrowing under the first sign code
in the candidate list for which exactly one operand narrows (preferring
the left); all earlier codes narrow neither operand. -/
theorem firstWidenRightPick_spec (t : HType) :
    ∀ (codes : List TypeCode) (a b : Expr) (isA : Bool) (nx : Expr),
      firstWidenRightPick t codes a b = some (isA, nx) →
      ∃ pre c post, codes = pre ++ c :: post ∧
        (∀ c2 ∈ pre, narrowsEitherAt t c2 a b = false) ∧
        (if isA then
           lossless_cast ((t.narrow).with_code c) a = some nx ∧
           lossless_cast ((t.narrow).with_code c) b = none
         else
           lossless_cast ((t.narrow).with_code c) a = none ∧
           lossless_cast ((t.narrow).with_code c) b = some nx) := by
  intro codes
  induction codes with
  | nil => intro a b isA nx h; simp [firstWidenRightPick] at h
  | cons c rest ih =>
      intro a b isA nx h
      rw [firstWidenRightPick] at h
      cases ha : lossless_cast ((t.narrow).with_code c) a with
      | some na2 =>
          cases hb : lossless_cast ((t.narrow).with_code c) b with
          | some nb2 => rw [ha, hb] at h; cases h
          | none =>
              rw [ha, hb] at h
              cases h
              exact ⟨[], c, rest, rfl, (by intro c2 hc2; cases hc2), by simp [ha, hb]⟩
      | none =>
          cases hb : lossless_cast ((t.narrow).with_code c) b with
          | some nb2 =>
              rw [ha, hb] at h
              cases h
              exact ⟨[], c, rest, rfl, (by intro c2 hc2; cases hc2), by simp [ha, hb]⟩
          | none =>
              rw [ha, hb] at h
              obtain ⟨pre, c3, post, hcodes, hpre, hrest⟩ := ih a b isA nx h
              refine ⟨c :: pre, c3, post, by simp [hcodes], ?_, hrest⟩
              intro c2 hc2
              rcases List.mem_cons.mp hc2 with hc2 | hc2
              · subst hc2; simp [narrowsEitherAt, ha, hb]
              · exact hpre c2 hc2

/-- After a sequence of `make_id` calls, the allocated ids extend the
existing ones consecutively. -/
theorem applyAllocs_map_fst (ks : List SpvKind) :
    ∀ st : SpvBuilderState,
      (applyAllocs st ks).kind_map.map Prod.fst =
        st.kind_map.map Prod.fst ++ List.range' (st.kind_map.length + 1) ks.length := by
  induction ks with
  | nil => intro st; simp [applyAllocs]
  | cons k rest ih =>
      intro st
      have step : applyAllocs st (k :: rest) = applyAllocs (make_id st k).2 rest := rfl
      rw [step, ih]
      simp [make_id, List.range'_succ]

/-- The maximum of the consecutive ids `s, s+1, ..., s+n`. -/
theorem foldr_max_range' (n : Nat) : ∀ s : Nat, (List.range' s (n + 1)).foldr max 0 = s + n := by
  induction n with
  | zero => intro s; simp [List.range']
  | succ n ih =>
      intro s
      rw [List.range'_succ]
      simp only [List.foldr_cons, ih (s + 1)]
      omega

/-- `find_intrinsics(e)` (FindIntrinsics.cpp:1383-1392) for a let-free
expression: `SubstituteInWideningLets` is the identity on expressions
without `Let` bindings, and the closing common-subexpression elimination
introduces bindings only for repeated subexpressions (none occur in the
scenarios below), so the recognizer proper is the `FindIntrinsics`
mutator. -/
def find_intrinsics (fuel : Nat) (e : Expr) : Expr := fiMutate fuel e

/-- The emitted serial loop runs its body once per index value from the
current one up to and including the bound. -/
theorem runSerialLoop_count (m n : Int) :
    ∀ (k : Nat) (i : Int) (c : Nat), (m + n + 1 - i).toNat = k →
      runSerialLoop m n i c = c + k := by
  intro k
  induction k with
  | zero =>
      intro i c hk
      have hni : ¬ i ≤ m + n := by omega
      rw [runSerialLoop]
      simp [hni]
  | succ k ih =>
      intro i c hk
      have hle : i ≤ m + n := by omega
      rw [runSerialLoop]
      simp only [hle, if_true]
      rw [ih (i + 1) (c + 1) (by omega)]
      omega

/-! ## The claims -/

/-- Scenario inputs shared by the claim statements. -/
def c2call : Expr :=
  .Call2 (UIntT 8 8) IOp.halving_add (.Var (UIntT 8 8) "a") (.Var (UIntT 8 8) "b")

/-- Claim C2, counterexample: for `halving_add` on `u8x8` operands the
expression the Vulkan emitter recursively emits code for is
`lower_intrinsic` — the efficient bitwise lowering — which differs from
`lower_intrinsic_semantically`, the reference lowering through the
widened type that the claim names. -/
theorem C2_counterexample :
    spirvEmitterLoweredExpr c2call = lower_intrinsic c2call ∧
    lower_intrinsic c2call ≠ lower_intrinsic_semantically c2call :=
  ⟨rfl, by decide⟩

/-- Claim C2 (amended): every higher-order intrinsic call the Vulkan
emitter's `visit(const Call *)` intercepts is resolved by recursively
emitting code for `lower_intrinsic(op)`
(CodeGen_Vulkan_Dev.cpp:732-733), not for
`lower_intrinsic_semantically(op)`. -/
theorem C2_emitter_uses_lower_intrinsic (e : Expr) (op : IOp)
    (h1 : callOp e = some op) (h2 : vulkanLoweredIntrinsics.contains op = true) :
    spirvEmitterLoweredExpr e = lower_intrinsic e := by
  simp only [spirvEmitterLoweredExpr, h1]
  exact if_pos h2

/-- Claim C2, witness: the amended theorem at the `halving_add` call. -/
theorem C2_witness :
    callOp c2call = some IOp.halving_add ∧
    vulkanLoweredIntrinsics.contains IOp.halving_add = true ∧
    spirvEmitterLoweredExpr c2call = lower_intrinsic c2call :=
  ⟨rfl, by decide,
   C2_emitter_uses_lower_intrinsic c2call IOp.halving_add rfl (by decide)⟩

def s2x : Expr := .Var (UIntT 8 8) "x"

def s2y : Expr := .Var (UIntT 8 8) "y"

/-- Scenario S2's input, `shift_right(widening_add(x, y) + 1, 1)` with
`x, y : u8x8`: the widening add has type `u16x8`, so the addition of the
round constant and the shift are `u16x8` operations. -/
def s2raw : Expr :=
  .Call2 (UIntT 16 8) IOp.shift_right
    (.Add (widening_add s2x s2y) (mkConst (UIntT 16 8) 1))
    (mkConst (UIntT 16 8) 1)

/-- Claim C3, counterexample: on the S2 expression itself — a `u16x8`
expression — the recognizer yields
`rounding_shift_right(widening_add(x, y), 1)` (still `u16x8`), not
`rounding_halving_add(x, y)`: the recognizer's rewrites preserve the
static type, and the claimed output has the narrower type `u8x8`. -/
theorem C3_counterexample :
    find_intrinsics 40 s2raw =
      rounding_shift_right (widening_add s2x s2y) (mkConst (UIntT 16 8) 1) ∧
    find_intrinsics 40 s2raw ≠ rounding_halving_add s2x s2y ∧
    (rounding_halving_add s2x s2y).etype ≠ s2raw.etype :=
  ⟨rfl, by decide, by decide⟩

/-- Claim C3 (amended): the round constant `+ 1` is found and removed
(`to_rounding_shift`, FindIntrinsics.cpp:116-198), giving the rounding
right shift of the widening add by 1; and once the expression is brought
back to `u8x8` by the narrowing cast, `visit(const Cast *)`
(FindIntrinsics.cpp:683-717) recognizes the whole as
`rounding_halving_add(x, y)`. -/
theorem C3_rounding_halving_add_recognized :
    find_intrinsics 40 (.Cast (UIntT 8 8) s2raw) = rounding_halving_add s2x s2y ∧
    find_intrinsics 40 s2raw =
      rounding_shift_right (widening_add s2x s2y) (mkConst (UIntT 16 8) 1) :=
  ⟨rfl, rfl⟩

/-- Claim C4, counterexample: when `visit(Add)`/`visit(Sub)` narrow both
operands for a widening op, the sign codes tried are only
{original result code, unsigned} (FindIntrinsics.cpp:224, 361) — the
claimed three-element order {original, unsigned, signed} is tried only
by the `widen_right_*` searches. -/
theorem C4_counterexample :
    addSubWideningCodes (UIntT 16 8) = [tuint, tuint] ∧
    addSubWideningCodes (UIntT 16 8) ≠ [tuint, tuint, tint] :=
  ⟨rfl, by decide⟩

/-- Claim C4 (amended): the widening searches of `visit(Add)` and
`visit(Sub)` try the sign codes {original result code, unsigned}, the
widen-right searches try {original result code, unsigned, signed}; in
each search the first code under which the narrowing is lossless wins,
and the narrowed payload carries exactly that sign code. -/
theorem C4_first_lossless_sign_code_wins (t : HType) (a b na nb a2 b2 : Expr)
    (isA : Bool) (nx : Expr)
    (h1 : firstNarrowPair t (addSubWideningCodes t) a b = some (na, nb))
    (h2 : firstWidenRightPick t (widenRightCodes t) a2 b2 = some (isA, nx)) :
    addSubWideningCodes t = [t.code, tuint] ∧
    widenRightCodes t = [t.code, tuint, tint] ∧
    (∃ pre c post, addSubWideningCodes t = pre ++ c :: post ∧
      (∀ c2 ∈ pre, narrowsBothAt t c2 a b = false) ∧
      na.etype = (t.narrow).with_code c ∧
      nb.etype = (t.narrow).with_code c) ∧
    (∃ pre c post, widenRightCodes t = pre ++ c :: post ∧
      (∀ c2 ∈ pre, narrowsEitherAt t c2 a2 b2 = false) ∧
      nx.etype = (t.narrow).with_code c) := by
  refine ⟨rfl, rfl, ?_, ?_⟩
  · obtain ⟨pre, c, post, hcodes, hpre, hna, hnb⟩ :=
      firstNarrowPair_spec t (addSubWideningCodes t) a b na nb h1
    exact ⟨pre, c, post, hcodes, hpre,
      lossless_cast_etype _ a na hna, lossless_cast_etype _ b nb hnb⟩
  · obtain ⟨pre, c, post, hcodes, hpre, hrest⟩ :=
      firstWidenRightPick_spec t (widenRightCodes t) a2 b2 isA nx h2
    refine ⟨pre, c, post, hcodes, hpre, ?_⟩
    cases isA with
    | true =>
        rw [if_pos rfl] at hrest
        exact lossless_cast_etype _ a2 nx hrest.1
    | false =>
        rw [if_neg Bool.false_ne_true] at hrest
        exact lossless_cast_etype _ b2 nx hrest.2

def c4t : HType := UIntT 16 8

def c4a : Expr := .Cast c4t (.Var (UIntT 8 8) "a")

def c4b : Expr := .Cast c4t (.Var (UIntT 8 8) "b")

def c4w : Expr := .Var c4t "w"

/-- Claim C4, witness: the amended theorem at `u16x8`, with both-narrow
operands for the widening search and a left-only-narrow pair for the
widen-right search. -/
theorem C4_witness :
    addSubWideningCodes c4t = [c4t.code, tuint] ∧
    widenRightCodes c4t = [c4t.code, tuint, tint] ∧
    (∃ pre c post, addSubWideningCodes c4t = pre ++ c :: post ∧
      (∀ c2 ∈ pre, narrowsBothAt c4t c2 c4a c4b = false) ∧
      (Expr.Var (UIntT 8 8) "a").etype = (c4t.narrow).with_code c ∧
      (Expr.Var (UIntT 8 8) "b").etype = (c4t.narrow).with_code c) ∧
    (∃ pre c post, widenRightCodes c4t = pre ++ c :: post ∧
      (∀ c2 ∈ pre, narrowsEitherAt c4t c2 c4a c4w = false) ∧
      (Expr.Var (UIntT 8 8) "a").etype = (c4t.narrow).with_code c) :=
  C4_first_lossless_sign_code_wins c4t c4a c4b
    (.Var (UIntT 8 8) "a") (.Var (UIntT 8 8) "b") c4a c4w
    true (.Var (UIntT 8 8) "a") (by decide) (by decide)

def c5x : Expr := .Var (UIntT 8 8) "u"

def c5y : Expr := .Var (UIntT 8 8) "v"

/-- Claim C5, counterexample: for unsigned `u8x8` operands the static
type of the reference lowering of `widening_sub` is the signed `i16x8`,
not `x.type.widen() = u16x8`: FindIntrinsics.cpp:1414-1420 switches the
widened type to signed when it is unsigned. -/
theorem C5_counterexample :
    (lower_widening_sub c5x c5y).etype = IntT 16 8 ∧
    c5x.etype.widen = UIntT 16 8 ∧
    (lower_widening_sub c5x c5y).etype ≠ c5x.etype.widen :=
  ⟨rfl, rfl, by decide⟩

/-- Claim C5 (amended): the static type of `lower_widening_sub(x, y)` is
`x.type.widen()` when that widened type is signed or float, and the
signed type of the same (doubled) width when `x.type.widen()` is
unsigned. -/
theorem C5_widening_sub_result_type (a b : Expr) :
    (lower_widening_sub a b).etype =
      (if (a.etype.widen).is_uint then (a.etype.widen).with_code tint
       else a.etype.widen) := by
  cases h : (a.etype.widen).is_uint <;> simp [lower_widening_sub, Expr.etype, h]

def c6_st1 : SpvBuilderState := (declare_type resetState (IntT 32)).2

def c6_tid : Nat := (declare_type resetState (IntT 32)).1

def c6_res : Option (Nat × SpvBuilderState) := declare_pointer_type_t c6_st1 (IntT 32) 7

def c6_pid : Nat := match c6_res with | some p => p.1 | none => 0

def c6_st2 : SpvBuilderState := match c6_res with | some p => p.2 | none => c6_st1

def c6_st3 : SpvBuilderState := (declare_type c6_st2 (UIntT 8)).2

def c6_uid : Nat := (declare_type c6_st2 (UIntT 8)).1

def c6_res2 : Option (Nat × SpvBuilderState) := declare_pointer_type_t c6_st3 (UIntT 8) 7

/-- Claim C6: the code contradicts the claim.  On a fresh builder with
`Int32` declared (type id 2), `declare_pointer_type(Int32, 7)` creates
pointer id 3 whose recorded base type id is `SpvInvalidId` (0), not 2:
on the cache miss, `SpvBuilder::declare_pointer_type`
(SpirvIR.cpp:884-890) passes the local `ptr_type_id` — just tested to be
`SpvInvalidId` — to the `SpvId` overload of `add_pointer_type` instead
of the type, so the pointer is interned under the key `(0, 7)` and its
`base_type_map` entry records 0.  In consequence a later pointer to the
different base type `UInt8` (type id 4) in the same storage class hits
the `(0, 7)` cache entry and returns the same pointer id 3. -/
theorem C6_declare_pointer_type_base_bug :
    c6_tid = 2 ∧ c6_pid = 3 ∧
    lookupBase c6_st2 c6_pid = some SpvInvalidId ∧
    lookupBase c6_st2 c6_pid ≠ some c6_tid ∧
    c6_uid = 4 ∧
    c6_res2.map Prod.fst = some c6_pid := by
  refine ⟨rfl, rfl, rfl, by decide, rfl, rfl⟩

/-- Claim C7: adding a block to a function whose (nonempty) tail block
does not end in a terminator appends an unconditional branch from the
old tail to the new block's label before attaching the new block; a
terminated tail is left untouched.  (The nonemptiness hypothesis
reflects that `is_terminated` reads `instructions.back()`, which is
undefined on an empty block.) -/
theorem C7_add_block_branches_unterminated_tail (f : SpvFunctionM) (b tail : SpvBlockM)
    (hlast : f.blocks.getLast? = some tail) (_hne : tail.instructions ≠ []) :
    (tail.is_terminated = false →
      (f.add_block b).blocks =
        f.blocks.dropLast ++
          [{ tail with instructions := tail.instructions ++ [spvBranch b.block_id] }, b]) ∧
    (tail.is_terminated = true → (f.add_block b).blocks = f.blocks ++ [b]) := by
  constructor
  · intro hterm
    simp [SpvFunctionM.add_block, hlast, hterm]
  · intro hterm
    simp [SpvFunctionM.add_block, hlast, hterm]

def c7tail : SpvBlockM := { block_id := 10, instructions := [spvIntegerAdd 1 2 3 4] }

def c7f : SpvFunctionM := { blocks := [c7tail] }

def c7b : SpvBlockM := { block_id := 20, instructions := [] }

/-- Claim C7, witness: a function with one unterminated, nonempty block
receives the branch to the new block's label. -/
theorem C7_witness :
    (c7tail.is_terminated = false →
      (c7f.add_block c7b).blocks =
        c7f.blocks.dropLast ++
          [{ c7tail with
               instructions := c7tail.instructions ++ [spvBranch c7b.block_id] }, c7b]) ∧
    (c7tail.is_terminated = true → (c7f.add_block c7b).blocks = c7f.blocks ++ [c7b]) :=
  C7_add_block_branches_unterminated_tail c7f c7b c7tail (by decide) (by decide)

/-- Claim C8: in a builder session — a reset followed by any sequence of
`make_id` calls — the allocated ids are exactly the consecutive ids
`1..n` (the module id from `reset` being 1), and `finalize` sets the
module's `binding_count` to `n + 1`: the highest allocated id plus one,
which is also the next free id. -/
theorem C8_consecutive_ids_and_binding_count (ks : List SpvKind) :
    (applyAllocs resetState ks).kind_map.map Prod.fst = List.range' 1 (ks.length + 1) ∧
    (finalizeBuilder (applyAllocs resetState ks)).binding_count = ks.length + 2 ∧
    ((applyAllocs resetState ks).kind_map.map Prod.fst).foldr max 0 + 1 =
      (finalizeBuilder (applyAllocs resetState ks)).binding_count := by
  have hkeys := applyAllocs_map_fst ks resetState
  have hkeys2 : (applyAllocs resetState ks).kind_map.map Prod.fst =
      List.range' 1 (ks.length + 1) := by
    rw [hkeys]
    rw [List.range'_succ]
    rfl
  have hlen : (applyAllocs resetState ks).kind_map.length = ks.length + 1 := by
    have h2 := congrArg List.length hkeys2
    simpa using h2
  refine ⟨hkeys2, ?_, ?_⟩
  · show (applyAllocs resetState ks).kind_map.length + 1 = ks.length + 2
    omega
  · rw [hkeys2, foldr_max_range' ks.length 1]
    show 1 + ks.length + 1 = (applyAllocs resetState ks).kind_map.length + 1
    omega

/-- Claim C9: while emitting one kernel, a GPU-thread `For` whose name
maps to workgroup dimension `d` must have a literal (statically-known)
extent; a loop whose extent differs from an earlier nonzero recorded
extent for `d` is a compilation error; otherwise the extent is recorded
for `d` (CodeGen_Vulkan_Dev.cpp:1098-1108). -/
theorem C9_workgroup_size_checks (wg : WorkgroupSize) (name : String) (t : HType)
    (v : Int) (d : Int) (e : Expr)
    (hd : thread_loop_workgroup_index name = d) (hpos : 0 ≤ d)
    (hne : ∀ t2 v2, e ≠ .IntImm t2 v2) :
    visit_gpu_thread_for wg name e =
      Except.error ("Vulkan requires statically-known workgroup size") ∧
    (wg.get d.toNat ≠ 0 → wg.get d.toNat ≠ u32ofInt v →
      visit_gpu_thread_for wg name (.IntImm t v) =
        Except.error ("Vulkan requires all kernels have the same workgroup size")) ∧
    (wg.get d.toNat = 0 ∨ wg.get d.toNat = u32ofInt v →
      visit_gpu_thread_for wg name (.IntImm t v) =
        Except.ok (wg.set d.toNat (u32ofInt v))) := by
  have hge : d ≥ 0 := hpos
  refine ⟨?_, ?_, ?_⟩
  · cases e
    case IntImm t2 v2 => exact absurd rfl (hne t2 v2)
    all_goals simp [visit_gpu_thread_for, hd, hge]
  · intro h1 h2
    have hb : (wg.get d.toNat == 0 || wg.get d.toNat == u32ofInt v) = false := by
      simp [h1, h2]
    simp [visit_gpu_thread_for, hd, hge, hb]
  · intro h
    have hb : (wg.get d.toNat == 0 || wg.get d.toNat == u32ofInt v) = true := by
      rcases h with h | h <;> simp [h]
    simp [visit_gpu_thread_for, hd, hge, hb]

def c9name : String := "k.__thread_id_x"

/-- Claim C9, witness: dimension x; a non-literal extent is an error, a
conflicting extent is an error, and a matching extent is recorded. -/
theorem C9_witness :
    visit_gpu_thread_for ⟨64, 1, 1⟩ c9name (.Var (IntT 32) "n") =
      Except.error ("Vulkan requires statically-known workgroup size") ∧
    visit_gpu_thread_for ⟨64, 1, 1⟩ c9name (.IntImm (IntT 32) 32) =
      Except.error ("Vulkan requires all kernels have the same workgroup size") ∧
    visit_gpu_thread_for ⟨0, 1, 1⟩ c9name (.IntImm (IntT 32) 64) =
      Except.ok ⟨64, 1, 1⟩ := by
  have h1 := C9_workgroup_size_checks ⟨64, 1, 1⟩ c9name (IntT 32) 32 0
    (.Var (IntT 32) "n") (by decide) (by decide) (by intro t2 v2 h; cases h)
  have h2 := C9_workgroup_size_checks ⟨0, 1, 1⟩ c9name (IntT 32) 64 0
    (.Var (IntT 32) "n") (by decide) (by decide) (by intro t2 v2 h; cases h)
  refine ⟨h1.1, h1.2.1 (by decide) (by decide), ?_⟩
  have h3 := h2.2.2 (Or.inl rfl)
  exact h3.trans (by rfl)

def c10ids : SerialForIds :=
  { index_type_id := 2, min_id := 3, extent_id := 4, max_id := 5, loop_var_id := 6,
    header_block_id := 7, top_block_id := 8, body_block_id := 9,
    continue_block_id := 10, merge_block_id := 11, current_index_id := 12,
    loop_test_type_id := 13, loop_test_id := 14, next_index_id := 15,
    constant_one_id := 16 }

/-- Claim C10: in the five-block serial loop the top block's second
instruction compares the loaded index against the bound with a *signed*
less-than-or-equal (`OpSLessThanEqual`), branching into the body while
`index <= min + extent`; with the loop variable initialised to `min` and
incremented by one each iteration, for extent `n >= 0` the body block
executes `n + 1` times. -/
theorem C10_serial_loop_trip_count (m n : Int) (ids : SerialForIds) (h : 0 ≤ n) :
    (serialForTopBlock ids).instructions.get? 1 =
      some (spvLessThanEqual ids.loop_test_type_id ids.loop_test_id
        ids.current_index_id ids.max_id true) ∧
    (spvLessThanEqual ids.loop_test_type_id ids.loop_test_id
        ids.current_index_id ids.max_id true).op = SpvOp.OpSLessThanEqual ∧
    serialLoopBodyCount m n = n.toNat + 1 := by
  refine ⟨rfl, rfl, ?_⟩
  show runSerialLoop m n m 0 = n.toNat + 1
  rw [runSerialLoop_count m n ((m + n + 1 - m).toNat) m 0 rfl]
  omega

/-- Claim C10, witness: the theorem at `min = 5`, `extent = 3` and
concrete ids: the body runs 4 times. -/
theorem C10_witness :
    (serialForTopBlock c10ids).instructions.get? 1 =
      some (spvLessThanEqual c10ids.loop_test_type_id c10ids.loop_test_id
        c10ids.current_index_id c10ids.max_id true) ∧
    (spvLessThanEqual c10ids.loop_test_type_id c10ids.loop_test_id
        c10ids.current_index_id c10ids.max_id true).op = SpvOp.OpSLessThanEqual ∧
    serialLoopBodyCount 5 3 = (3 : Int).toNat + 1 :=
  C10_serial_loop_trip_count 5 3 c10ids (by decide)

end HalideSpec
